import Mathlib

/-!
# ansible-service-broker: job-state tracking core

A shallow embedding of

* `pkg/dao/crd/conversion.go` (the conversions between the domain model and
  the persisted schema),
* `pkg/dao/crd/dao.go` (the CRD-backed `Dao`), and
* `pkg/broker/deprovision_subscriber.go` (the deprovision work subscriber),

followed by theorems about them.

Conventions of the embedding.

* Go string-typed enumerations (`apb.State`, `v1.State`, `apb.JobMethod`,
  `v1.JobMethod`) are inductive types with one constructor per declared
  constant and a constructor `other raw` for every remaining string value.
* The cluster API (the generated clientset) is an external dependency.  It is
  modelled by `Cluster`: one name-keyed object list per resource kind, a
  script of injected failures consumed one entry per API call, and the log of
  API calls made so far.
* A Go call that panics is modelled by the result `none`.
* A Go function returning `(value, error)` where the value is meaningful
  together with the error returns a pair; a function whose value is the zero
  value on error returns `Except`.
-/

/-! ## Errors -/

/-- Go `error` values that occur in the embedded code.  `NotFound` and
`AlreadyExists` are the two API status errors the model of the cluster API
produces by itself, `Other` is any further error (network, conflict, quota,
encoding), and `arrayErrors` is the aggregate error type of `conversion.go`. -/
inductive Error where
  | NotFound
  | AlreadyExists
  | Other (msg : String)
  | arrayErrors (errs : List Error)

/-! ## Domain model (`bundle-lib/apb`) -/

namespace apb

/-- Modelled from the spec: the declaration of `apb.State` (a string type with
the constants `StateNotYetStarted`, `StateInProgress`, `StateSucceeded`,
`StateFailed`) is not among the sources.  `other raw` stands for a string
value that is none of the four constants; the zero value is `other ""`. -/
inductive State where
  | StateNotYetStarted
  | StateInProgress
  | StateSucceeded
  | StateFailed
  | other (raw : String)
  deriving DecidableEq, Repr

/-- Modelled from the spec: the declaration of `apb.JobMethod` (a string type
with five constants) is not among the sources.  `other raw` stands for a
string value that is none of the five constants. -/
inductive JobMethod where
  | JobMethodProvision
  | JobMethodDeprovision
  | JobMethodBind
  | JobMethodUnbind
  | JobMethodUpdate
  | other (raw : String)
  deriving DecidableEq, Repr

/-- The `apb.JobState` record, with the fields `conversion.go` reads and
writes. -/
structure JobState where
  Token : String
  State : apb.State
  Podname : String
  Method : apb.JobMethod
  Error : String
  Description : String
  deriving DecidableEq, Repr

/-- The Go zero value `apb.JobState{}`. -/
def JobState.zero : JobState :=
  { Token := "", State := .other "", Podname := "", Method := .other "",
    Error := "", Description := "" }

end apb

/-! ## Persisted schema (`broker-client-go` `v1`) -/

namespace v1

/-- Modelled from the spec: the declaration of `v1.State` is not among the
sources; see `apb.State`. -/
inductive State where
  | StateNotYetStarted
  | StateInProgress
  | StateSucceeded
  | StateFailed
  | other (raw : String)
  deriving DecidableEq, Repr

/-- Modelled from the spec: the declaration of `v1.JobMethod` is not among the
sources; see `apb.JobMethod`. -/
inductive JobMethod where
  | JobMethodProvision
  | JobMethodDeprovision
  | JobMethodBind
  | JobMethodUnbind
  | JobMethodUpdate
  | other (raw : String)
  deriving DecidableEq, Repr

/-- The `v1.JobStateSpec` record. -/
structure JobStateSpec where
  State : v1.State
  Method : v1.JobMethod
  PodName : String
  Error : String
  Description : String
  deriving DecidableEq, Repr

/-- The `v1.Context` record (the field is spelled `Plateform` in the
persisted schema). -/
structure Context where
  Namespace : String
  Plateform : String
  deriving DecidableEq, Repr

/-- The `v1.ServiceInstanceSpec` record. -/
structure ServiceInstanceSpec where
  BundleID : String
  Context : v1.Context
  Parameters : String
  BindingIDs : List String
  deriving DecidableEq, Repr

/-- The `metav1.ObjectMeta` fields the DAO uses.  `Labels = none` is the nil
map. -/
structure ObjectMeta where
  Name : String
  Namespace : String
  Labels : Option (List (String × String))
  deriving DecidableEq, Repr

/-- A cluster object: metadata and a kind-specific `Spec`. -/
structure Object (α : Type) where
  ObjectMeta : v1.ObjectMeta
  Spec : α
  deriving DecidableEq, Repr

/-- The `v1.JobState` object. -/
abbrev JobState := Object JobStateSpec

/-- The `v1.ServiceInstance` object. -/
abbrev ServiceInstance := Object ServiceInstanceSpec

/-- Modelled from the spec: the string constants behind `v1.State` are not
among the sources; this is `fmt.Sprintf("%v", s)`, the state name used in the
`state=<stateName>` label.  Only the pairwise distinctness of the four names
matters below. -/
def State.format : v1.State → String
  | .StateNotYetStarted => "not yet started"
  | .StateInProgress => "in progress"
  | .StateSucceeded => "succeeded"
  | .StateFailed => "failed"
  | .other raw => raw

end v1

/-! ## `conversion.go`: job states -/

namespace dao

/-- Source: `convertJobMethodToCRD`. -/
def convertJobMethodToCRD (j : apb.JobMethod) : v1.JobMethod :=
  match j with
  | .JobMethodProvision => .JobMethodProvision
  | .JobMethodDeprovision => .JobMethodDeprovision
  | .JobMethodBind => .JobMethodBind
  | .JobMethodUnbind => .JobMethodUnbind
  | .JobMethodUpdate => .JobMethodUpdate
  | .other _ => .JobMethodProvision

/-- Source: `convertStateToCRD`. -/
def convertStateToCRD (s : apb.State) : v1.State :=
  match s with
  | .StateNotYetStarted => .StateNotYetStarted
  | .StateInProgress => .StateInProgress
  | .StateSucceeded => .StateSucceeded
  | .StateFailed => .StateFailed
  | .other _ => .StateFailed

/-- Source: `convertJobStateToCRD`; the error is always nil. -/
def convertJobStateToCRD (js : apb.JobState) : Except Error v1.JobStateSpec :=
  .ok { State := convertStateToCRD js.State,
        Method := convertJobMethodToCRD js.Method,
        PodName := js.Podname,
        Error := js.Error,
        Description := js.Description }

/-- Source: `convertJobMethodToAPB`. -/
def convertJobMethodToAPB (j : v1.JobMethod) : apb.JobMethod :=
  match j with
  | .JobMethodProvision => .JobMethodProvision
  | .JobMethodDeprovision => .JobMethodDeprovision
  | .JobMethodBind => .JobMethodBind
  | .JobMethodUnbind => .JobMethodUnbind
  | .JobMethodUpdate => .JobMethodUpdate
  | .other _ => .JobMethodProvision

/-- Source: `convertStateToAPB`. -/
def convertStateToAPB (s : v1.State) : apb.State :=
  match s with
  | .StateNotYetStarted => .StateNotYetStarted
  | .StateInProgress => .StateInProgress
  | .StateSucceeded => .StateSucceeded
  | .StateFailed => .StateFailed
  | .other _ => .StateFailed

/-- Source: `convertJobStateToAPB`; the error is always nil. -/
def convertJobStateToAPB (js : v1.JobStateSpec) (id : String) : Except Error apb.JobState :=
  .ok { Token := id,
        State := convertStateToAPB js.State,
        Method := convertJobMethodToAPB js.Method,
        Podname := js.PodName,
        Error := js.Error,
        Description := js.Description }

end dao

/-! ## Persisted schema: bundles and service bindings -/

/-- A Go `float64`, by its IEEE-754 bit pattern.  The embedded code only
copies such values. -/
structure Float64 where
  bits : Nat
  deriving DecidableEq, Repr

namespace v1

/-- Modelled from the spec: the declaration of `v1.AsyncType` (a string type
with the constants `OptionalAsync`, `RequiredAsync`, `Unsupported`) is not
among the sources.  `other raw` stands for a string value that is none of the
three constants; the zero value is `other ""`. -/
inductive AsyncType where
  | OptionalAsync
  | RequiredAsync
  | Unsupported
  | other (raw : String)
  deriving DecidableEq, Repr

/-- The `v1.Parameters` record.  `Default` holds an encoded JSON document;
the four bounds are `*NilableNumber` pointers (`none` is nil); the field
`Type` is written `Type_`. -/
structure Parameters where
  Name : String
  Title : String
  Type_ : String
  Description : String
  Default : String
  DeprecatedMaxLength : Int
  MaxLength : Int
  MinLength : Int
  Pattern : String
  MultipleOf : Float64
  Maximum : Option Float64
  ExclusiveMaximum : Option Float64
  ExclusiveMinimum : Option Float64
  Minimum : Option Float64
  Enum : List String
  Required : Bool
  Updatable : Bool
  DisplayType : String
  DisplayGroup : String
  deriving DecidableEq, Repr

/-- The `v1.Plan` record.  `Metadata` holds an encoded JSON document. -/
structure Plan where
  ID : String
  Name : String
  Description : String
  Metadata : String
  Free : Bool
  Bindable : Bool
  UpdatesTo : List String
  Parameters : List v1.Parameters
  BindParameters : List v1.Parameters
  deriving DecidableEq, Repr

/-- The Go zero value `v1.Plan{}`. -/
def Plan.zero : v1.Plan :=
  { ID := "", Name := "", Description := "", Metadata := "", Free := false, Bindable := false,
    UpdatesTo := [], Parameters := [], BindParameters := [] }

/-- The `v1.BundleSpec` record.  `Metadata` holds an encoded JSON document. -/
structure BundleSpec where
  Runtime : Int
  Version : String
  FQName : String
  Image : String
  Tags : List String
  Bindable : Bool
  Description : String
  Async : v1.AsyncType
  Metadata : String
  Plans : List v1.Plan
  deriving DecidableEq, Repr

/-- The `v1.ServiceBindingSpec` record.  `Parameters` holds an encoded JSON
document. -/
structure ServiceBindingSpec where
  ServiceInstanceID : String
  Parameters : String
  JobToken : String
  deriving DecidableEq, Repr

/-- The `v1.Bundle` object. -/
abbrev Bundle := Object BundleSpec

/-- The `v1.ServiceBinding` object. -/
abbrev ServiceBinding := Object ServiceBindingSpec

end v1

/-! ## The cluster API (external clientset), modelled as an in-memory fake -/

/-- The four resource kinds the DAO stores. -/
inductive Kind where
  | Bundles
  | ServiceInstances
  | ServiceBindings
  | JobStates
  deriving DecidableEq, Repr

/-- One call of the cluster API, as logged by the fake.  A label selector is
the list of its `key=value` requirements. -/
inductive ClientAction where
  | Get (kind : Kind) (name : String)
  | Create (kind : Kind) (name : String)
  | Update (kind : Kind) (name : String)
  | Delete (kind : Kind) (name : String)
  | List (kind : Kind) (selector : List (String × String))
  deriving DecidableEq, Repr

/-- The state of the cluster API as seen through the namespace of one `Dao`:
the stored objects per kind (in creation order), the script of injected
failures (entry `some e` makes the next API call fail with `e` and change
nothing, entry `none` or an exhausted script lets it run), and the log of
calls made. -/
structure Cluster where
  jobStates : List v1.JobState
  serviceInstances : List v1.ServiceInstance
  bundles : List v1.Bundle
  serviceBindings : List v1.ServiceBinding
  faults : List (Option Error)
  actions : List ClientAction

/-- The cluster with no objects and the given failure script. -/
def Cluster.empty (faults : List (Option Error)) : Cluster :=
  { jobStates := [], serviceInstances := [], bundles := [], serviceBindings := [],
    faults := faults, actions := [] }

/-- Go map read `labels[k]` as an option. -/
def labelGet : List (String × String) → String → Option String
  | [], _ => none
  | (k1, v1) :: rest, k => if k1 = k then some v1 else labelGet rest k

/-- Go map write `labels[k] = v`. -/
def labelSet : List (String × String) → String → String → List (String × String)
  | [], k, v => [(k, v)]
  | (k1, v1) :: rest, k, v =>
    if k1 = k then (k, v) :: rest else (k1, v1) :: labelSet rest k v

/-- Go map read `obj.GetLabels()[k]`: the empty string when the map is nil or
the key is missing. -/
def labelIndex (labels : Option (List (String × String))) (k : String) : String :=
  match labels with
  | none => ""
  | some l => (labelGet l k).getD ""

/-- An equality-based label selector matches an object when each required
key is present with the required value. -/
def selectorMatches (selector : List (String × String))
    (labels : Option (List (String × String))) : Bool :=
  selector.all fun kv =>
    match labels with
    | none => false
    | some l => decide (labelGet l kv.1 = some kv.2)

/-- The stored object called `name`, if any. -/
def storeGet {α : Type} : List (v1.Object α) → String → Option (v1.Object α)
  | [], _ => none
  | o :: rest, name => if o.ObjectMeta.Name = name then some o else storeGet rest name

/-- Replace the stored object that has the name of `obj`. -/
def storeReplace {α : Type} : List (v1.Object α) → v1.Object α → List (v1.Object α)
  | [], _ => []
  | o :: rest, obj =>
    if o.ObjectMeta.Name = obj.ObjectMeta.Name then obj :: rest
    else o :: storeReplace rest obj

/-- Remove the stored object called `name`. -/
def storeRemove {α : Type} (objs : List (v1.Object α)) (name : String) : List (v1.Object α) :=
  objs.filter fun o => decide (o.ObjectMeta.Name ≠ name)

/-- The failure, if any, the script injects into the next API call. -/
def Cluster.nextFault (c : Cluster) : Option Error :=
  match c.faults with
  | [] => none
  | f :: _ => f

/-- The cluster after an API call was logged and its script entry consumed. -/
def Cluster.logged (c : Cluster) (a : ClientAction) : Cluster :=
  { c with actions := c.actions ++ [a], faults := c.faults.tail }

/-- Log an API call and take the next entry of the failure script. -/
def Cluster.call (c : Cluster) (a : ClientAction) : Cluster × Option Error :=
  (c.logged a, c.nextFault)

namespace JobStates

/-- The API call `JobStates(ns).Get(name)`. -/
def Get (c : Cluster) (name : String) : Cluster × Except Error v1.JobState :=
  match c.call (.Get .JobStates name) with
  | (c1, some e) => (c1, .error e)
  | (c1, none) =>
    match storeGet c1.jobStates name with
    | some o => (c1, .ok o)
    | none => (c1, .error .NotFound)

/-- The API call `JobStates(ns).Create(obj)`: rejects an existing name. -/
def Create (c : Cluster) (obj : v1.JobState) : Cluster × Except Error v1.JobState :=
  match c.call (.Create .JobStates obj.ObjectMeta.Name) with
  | (c1, some e) => (c1, .error e)
  | (c1, none) =>
    match storeGet c1.jobStates obj.ObjectMeta.Name with
    | some _ => (c1, .error .AlreadyExists)
    | none => ({ c1 with jobStates := c1.jobStates ++ [obj] }, .ok obj)

/-- The API call `JobStates(ns).Update(obj)`: needs an existing name. -/
def Update (c : Cluster) (obj : v1.JobState) : Cluster × Except Error v1.JobState :=
  match c.call (.Update .JobStates obj.ObjectMeta.Name) with
  | (c1, some e) => (c1, .error e)
  | (c1, none) =>
    match storeGet c1.jobStates obj.ObjectMeta.Name with
    | some _ => ({ c1 with jobStates := storeReplace c1.jobStates obj }, .ok obj)
    | none => (c1, .error .NotFound)

/-- The API call `JobStates(ns).List(selector)`. -/
def List (c : Cluster) (selector : List (String × String)) :
    Cluster × Except Error (List v1.JobState) :=
  match c.call (.List .JobStates selector) with
  | (c1, some e) => (c1, .error e)
  | (c1, none) =>
    (c1, .ok (c1.jobStates.filter fun o => selectorMatches selector o.ObjectMeta.Labels))

end JobStates

namespace ServiceInstances

/-- The API call `ServiceInstances(ns).Get(name)`. -/
def Get (c : Cluster) (name : String) : Cluster × Except Error v1.ServiceInstance :=
  match c.call (.Get .ServiceInstances name) with
  | (c1, some e) => (c1, .error e)
  | (c1, none) =>
    match storeGet c1.serviceInstances name with
    | some o => (c1, .ok o)
    | none => (c1, .error .NotFound)

/-- The API call `ServiceInstances(ns).Create(obj)`: rejects an existing name. -/
def Create (c : Cluster) (obj : v1.ServiceInstance) :
    Cluster × Except Error v1.ServiceInstance :=
  match c.call (.Create .ServiceInstances obj.ObjectMeta.Name) with
  | (c1, some e) => (c1, .error e)
  | (c1, none) =>
    match storeGet c1.serviceInstances obj.ObjectMeta.Name with
    | some _ => (c1, .error .AlreadyExists)
    | none => ({ c1 with serviceInstances := c1.serviceInstances ++ [obj] }, .ok obj)

/-- The API call `ServiceInstances(ns).Update(obj)`: needs an existing name. -/
def Update (c : Cluster) (obj : v1.ServiceInstance) :
    Cluster × Except Error v1.ServiceInstance :=
  match c.call (.Update .ServiceInstances obj.ObjectMeta.Name) with
  | (c1, some e) => (c1, .error e)
  | (c1, none) =>
    match storeGet c1.serviceInstances obj.ObjectMeta.Name with
    | some _ => ({ c1 with serviceInstances := storeReplace c1.serviceInstances obj }, .ok obj)
    | none => (c1, .error .NotFound)

/-- The API call `ServiceInstances(ns).Delete(name)`: needs an existing name. -/
def Delete (c : Cluster) (name : String) : Cluster × Option Error :=
  match c.call (.Delete .ServiceInstances name) with
  | (c1, some e) => (c1, some e)
  | (c1, none) =>
    match storeGet c1.serviceInstances name with
    | some _ => ({ c1 with serviceInstances := storeRemove c1.serviceInstances name }, none)
    | none => (c1, some .NotFound)

end ServiceInstances

namespace Bundles

/-- The API call `Bundles(ns).Create(obj)`: rejects an existing name. -/
def Create (c : Cluster) (obj : v1.Bundle) : Cluster × Except Error v1.Bundle :=
  match c.call (.Create .Bundles obj.ObjectMeta.Name) with
  | (c1, some e) => (c1, .error e)
  | (c1, none) =>
    match storeGet c1.bundles obj.ObjectMeta.Name with
    | some _ => (c1, .error .AlreadyExists)
    | none => ({ c1 with bundles := c1.bundles ++ [obj] }, .ok obj)

/-- The API call `Bundles(ns).Delete(name)`: needs an existing name. -/
def Delete (c : Cluster) (name : String) : Cluster × Option Error :=
  match c.call (.Delete .Bundles name) with
  | (c1, some e) => (c1, some e)
  | (c1, none) =>
    match storeGet c1.bundles name with
    | some _ => ({ c1 with bundles := storeRemove c1.bundles name }, none)
    | none => (c1, some .NotFound)

/-- The API call `Bundles(ns).List(selector)`. -/
def List (c : Cluster) (selector : List (String × String)) :
    Cluster × Except Error (List v1.Bundle) :=
  match c.call (.List .Bundles selector) with
  | (c1, some e) => (c1, .error e)
  | (c1, none) =>
    (c1, .ok (c1.bundles.filter fun o => selectorMatches selector o.ObjectMeta.Labels))

end Bundles

namespace ServiceBindings

/-- The API call `ServiceBindings(ns).Create(obj)`: rejects an existing name. -/
def Create (c : Cluster) (obj : v1.ServiceBinding) :
    Cluster × Except Error v1.ServiceBinding :=
  match c.call (.Create .ServiceBindings obj.ObjectMeta.Name) with
  | (c1, some e) => (c1, .error e)
  | (c1, none) =>
    match storeGet c1.serviceBindings obj.ObjectMeta.Name with
    | some _ => (c1, .error .AlreadyExists)
    | none => ({ c1 with serviceBindings := c1.serviceBindings ++ [obj] }, .ok obj)

end ServiceBindings

/-! ## `dao.go`: the CRD-backed DAO, job states -/

namespace uuid

/-- The `uuid.UUID` type of the external `pborman/uuid` package: a byte slice,
nil (`none`) when parsing failed. -/
abbrev UUID := Option (List Nat)

end uuid

namespace apb

/-- The `apb.RecoverStatus` record. -/
structure RecoverStatus where
  InstanceID : uuid.UUID
  State : apb.JobState
  deriving DecidableEq, Repr

end apb

namespace dao

/-- Source: constant `jobStateInstanceLabel`. -/
def jobStateInstanceLabel : String := "instanceId"

/-- Source: constant `jobStateLabel`. -/
def jobStateLabel : String := "state"

/-- Source: type `Dao`.  The `client` field is the `Cluster` value threaded
through every operation; the field `namespace` is written `namespace_`. -/
structure Dao where
  namespace_ : String
  deriving DecidableEq, Repr

/-- Source: `Dao.SetState`.  The result is `none` when the call panics: the
update path assigns into the label map of the fetched object, which panics
when that map is nil. -/
def Dao.SetState (d : Dao) (c : Cluster) (instanceID : String) (state : apb.JobState) :
    Option (Cluster × String × Option Error) :=
  match convertJobStateToCRD state with
  | .error err => some (c, "", some err)
  | .ok j =>
    match JobStates.Get c state.Token with
    | (c1, .ok js) =>
      match js.ObjectMeta.Labels with
      | none => none
      | some labels =>
        let js : v1.JobState :=
          { ObjectMeta :=
              { js.ObjectMeta with
                Labels := some (labelSet labels jobStateLabel
                  (convertStateToCRD state.State).format) },
            Spec := j }
        match JobStates.Update c1 js with
        | (c2, .error err) => some (c2, state.Token, some err)
        | (c2, .ok _) => some (c2, state.Token, none)
    | (c1, .error _) =>
      let js : v1.JobState :=
        { ObjectMeta :=
            { Name := state.Token,
              Namespace := d.namespace_,
              Labels := some [(jobStateInstanceLabel, instanceID),
                (jobStateLabel, (convertStateToCRD state.State).format)] },
          Spec := j }
      match JobStates.Create c1 js with
      | (c2, .error err) => some (c2, "", some err)
      | (c2, .ok _) => some (c2, state.Token, none)

/-- Source: `Dao.GetState`.  The `id` argument is unused, as in the source. -/
def Dao.GetState (_d : Dao) (c : Cluster) (_id : String) (token : String) :
    Cluster × Except Error apb.JobState :=
  match JobStates.Get c token with
  | (c1, .error err) => (c1, .error err)
  | (c1, .ok js) =>
    match convertJobStateToAPB js.Spec js.ObjectMeta.Name with
    | .error err => (c1, .error err)
    | .ok j => (c1, .ok j)

/-- Source: `Dao.GetStateByKey`. -/
def Dao.GetStateByKey (d : Dao) (c : Cluster) (key : String) :
    Cluster × Except Error apb.JobState :=
  d.GetState c "" key

/-- The loop of `Dao.FindJobStateByState` over the listed items, with the
accumulators `rs` and `errs`. -/
def findJobStateLoop (parse : String → uuid.UUID) :
    List v1.JobState → List apb.RecoverStatus → List Error →
      List apb.RecoverStatus × List Error
  | [], rs, errs => (rs, errs)
  | js :: rest, rs, errs =>
    match convertJobStateToAPB js.Spec js.ObjectMeta.Name with
    | .error err => findJobStateLoop parse rest rs (errs ++ [err])
    | .ok j =>
      findJobStateLoop parse rest
        (rs ++ [{ InstanceID := parse (labelIndex js.ObjectMeta.Labels jobStateInstanceLabel),
                  State := j }]) errs

/-- Source: `Dao.FindJobStateByState`.  `parse` is `uuid.Parse` of the
external `pborman/uuid` package.  The nil slice returned with a list error is
the empty list. -/
def Dao.FindJobStateByState (parse : String → uuid.UUID) (_d : Dao) (c : Cluster)
    (state : apb.State) : Cluster × List apb.RecoverStatus × Option Error :=
  match JobStates.List c [(jobStateLabel, (convertStateToCRD state).format)] with
  | (c1, .error err) => (c1, [], some err)
  | (c1, .ok items) =>
    match findJobStateLoop parse items [] [] with
    | (rs, errs) =>
      if errs.length > 0 then (c1, rs, some (.arrayErrors errs)) else (c1, rs, none)

/-- The loop of `Dao.GetSvcInstJobsByState` over the listed items, with the
accumulators `jss` and `errs`. -/
def svcInstJobsLoop :
    List v1.JobState → List apb.JobState → List Error → List apb.JobState × List Error
  | [], jss, errs => (jss, errs)
  | js :: rest, jss, errs =>
    match convertJobStateToAPB js.Spec js.ObjectMeta.Name with
    | .error err => svcInstJobsLoop rest jss (errs ++ [err])
    | .ok job => svcInstJobsLoop rest (jss ++ [job]) errs

/-- Source: `Dao.GetSvcInstJobsByState`. -/
def Dao.GetSvcInstJobsByState (_d : Dao) (c : Cluster) (ID : String) (state : apb.State) :
    Cluster × List apb.JobState × Option Error :=
  match JobStates.List c
      [(jobStateInstanceLabel, ID), (jobStateLabel, (convertStateToCRD state).format)] with
  | (c1, .error err) => (c1, [], some err)
  | (c1, .ok items) =>
    match svcInstJobsLoop items [] [] with
    | (jss, errs) =>
      if errs.length > 0 then (c1, jss, some (.arrayErrors errs)) else (c1, jss, none)

/-- Source: `Dao.DeleteServiceInstance`. -/
def Dao.DeleteServiceInstance (_d : Dao) (c : Cluster) (id : String) : Cluster × Option Error :=
  ServiceInstances.Delete c id

/-- Source: `Dao.IsNotFoundError`, that is `apierrors.IsNotFound`. -/
def Dao.IsNotFoundError (_d : Dao) (err : Option Error) : Bool :=
  match err with
  | some .NotFound => true
  | _ => false

end dao

/-! ## Domain model: catalog entries and service instances -/

/-- Go values of type `interface{}` as they occur in metadata, default and
parameter documents.  `unsupported` stands for a value `encoding/json` cannot
encode (a channel, a function). -/
inductive Value where
  | null
  | bool (b : Bool)
  | number (n : Float64)
  | string (s : String)
  | array (items : List Value)
  | object (entries : List (String × Value))
  | unsupported (kind : String)

/-- The two functions of the external `encoding/json` package the DAO uses. -/
structure JSON where
  Marshal : Value → Except Error String
  Unmarshal : String → Except Error Value

namespace apb

/-- The `apb.ParameterDescriptor` record, with the fields `conversion.go`
reads and writes.  The four bounds are `*NilableNumber` pointers; the field
`Type` is written `Type_`. -/
structure ParameterDescriptor where
  Name : String
  Title : String
  Type_ : String
  Description : String
  Default : Value
  DeprecatedMaxlength : Int
  MaxLength : Int
  MinLength : Int
  Pattern : String
  MultipleOf : Float64
  Maximum : Option Float64
  ExclusiveMaximum : Option Float64
  Minimum : Option Float64
  ExclusiveMinimum : Option Float64
  Enum : List String
  Required : Bool
  Updatable : Bool
  DisplayType : String
  DisplayGroup : String

/-- The `apb.Plan` record, with the fields `conversion.go` reads and writes. -/
structure Plan where
  ID : String
  Name : String
  Description : String
  Metadata : List (String × Value)
  Free : Bool
  Bindable : Bool
  UpdatesTo : List String
  Parameters : List ParameterDescriptor
  BindParameters : List ParameterDescriptor

/-- The `apb.Spec` record, with the fields `conversion.go` reads and writes. -/
structure Spec where
  ID : String
  Runtime : Int
  Version : String
  FQName : String
  Image : String
  Tags : List String
  Bindable : Bool
  Description : String
  Async : String
  Metadata : List (String × Value)
  Plans : List Plan

/-- The `apb.Context` record. -/
structure Context where
  Namespace : String
  Platform : String
  deriving DecidableEq, Repr

/-- The `apb.ServiceInstance` record.  `Spec`, `Context` and `Parameters` are
pointers (`none` is nil); `Parameters` points to a `map[string]interface{}`;
the map `BindingIDs` is the list of its entries in the order a `range` loop
visits them. -/
structure ServiceInstance where
  ID : uuid.UUID
  Spec : Option apb.Spec
  Context : Option apb.Context
  Parameters : Option (List (String × Value))
  BindingIDs : List (String × Bool)

end apb

namespace dao

/-- The `range si.BindingIDs` loop of `convertServiceInstanceToCRD`, with the
accumulator `bindingIDs`. -/
def bindingIDsLoop : List (String × Bool) → List String → List String
  | [], bindingIDs => bindingIDs
  | (key, _) :: rest, bindingIDs => bindingIDsLoop rest (bindingIDs ++ [key])

/-- Source: `convertServiceInstanceToCRD`.  The result is `none` when the call
panics, which it does on reading `si.Spec.ID` or `si.Context.Namespace`
through a nil pointer. -/
def convertServiceInstanceToCRD (json : JSON) (si : apb.ServiceInstance) :
    Option (Except Error v1.ServiceInstanceSpec) :=
  let marshalled : Except Error String :=
    match si.Parameters with
    | some p => json.Marshal (.object p)
    | none => .ok ""
  match marshalled with
  | .error err => some (.error err)
  | .ok b =>
    let bindingIDs := bindingIDsLoop si.BindingIDs []
    match si.Spec, si.Context with
    | some spec, some ctx =>
      some (.ok { BundleID := spec.ID,
                  Context := { Namespace := ctx.Namespace, Plateform := ctx.Platform },
                  Parameters := b,
                  BindingIDs := bindingIDs })
    | _, _ => none

/-- Source: `Dao.SetServiceInstance`.  The result is `none` when the
conversion panics. -/
def Dao.SetServiceInstance (json : JSON) (d : Dao) (c : Cluster) (id : String)
    (serviceInstance : apb.ServiceInstance) : Option (Cluster × Option Error) :=
  match convertServiceInstanceToCRD json serviceInstance with
  | none => none
  | some (.error err) => some (c, some err)
  | some (.ok spec) =>
    match ServiceInstances.Get c id with
    | (c1, .ok si) =>
      let si : v1.ServiceInstance := { si with Spec := spec }
      match ServiceInstances.Update c1 si with
      | (c2, .error err) => some (c2, some err)
      | (c2, .ok _) => some (c2, none)
    | (c1, .error _) =>
      let s : v1.ServiceInstance :=
        { ObjectMeta := { Name := id, Namespace := d.namespace_, Labels := none },
          Spec := spec }
      match ServiceInstances.Create c1 s with
      | (c2, .error err) => some (c2, some err)
      | (c2, .ok _) => some (c2, none)

end dao

/-! ## `conversion.go`: bundles, plans, parameters, instances and bindings -/

namespace reflect

/-- The values of the external `reflect` package that `conversion.go` builds:
`reflect.ValueOf` of a `*NilableNumber` pointer has kind `Ptr` (`ptr`); a
value of kind `Float64` (`float`) is listed for comparison. -/
inductive Value where
  | float (x : Float64)
  | ptr (elem : Float64)
  deriving DecidableEq, Repr

/-- The call `reflect.ValueOf(p)` for a non-nil pointer `p` to the number
`elem`. -/
def ValueOf (elem : Float64) : reflect.Value := .ptr elem

/-- The method `reflect.Value.Float`: it returns the underlying number of a
value of kind `Float32` or `Float64` and panics (`none`) on every other kind. -/
def Value.Float : reflect.Value → Option Float64
  | .float x => some x
  | .ptr _ => none

end reflect

namespace apb

/-- The `apb.BindInstance` record.  `Parameters` is a pointer (`none` is
nil) to a `map[string]interface{}`. -/
structure BindInstance where
  ID : uuid.UUID
  ServiceID : uuid.UUID
  Parameters : Option (List (String × Value))
  CreateJobKey : String

end apb

namespace dao

/-- Source: `convertToAsyncType`. -/
def convertToAsyncType (s : String) : v1.AsyncType :=
  if s = "optional" then .OptionalAsync
  else if s = "required" then .RequiredAsync
  else if s = "unsupported" then .Unsupported
  else .RequiredAsync

/-- Source: `convertAsyncTypeToString`. -/
def convertAsyncTypeToString (a : v1.AsyncType) : String :=
  match a with
  | .OptionalAsync => "optional"
  | .RequiredAsync => "required"
  | .Unsupported => "unsupported"
  | .other _ => "required"

/-- One of the four identical blocks of `convertParametersToCRD` and
`convertParametersToAPB` that copy a bound: a nil pointer stays nil; for a
non-nil pointer `bound` the block evaluates
`reflect.ValueOf(bound).Float()` and stores a pointer to the result.  The
result is `none` when the block panics. -/
def convertBound (bound : Option Float64) : Option (Option Float64) :=
  match bound with
  | none => some none
  | some elem =>
    match (reflect.ValueOf elem).Float with
    | none => none
    | some n => some (some n)

/-- Source: `convertParametersToCRD`.  The result is `none` when the call
panics. -/
def convertParametersToCRD (json : JSON) (param : apb.ParameterDescriptor) :
    Option (Except Error v1.Parameters) :=
  match json.Marshal (.object [("default", param.Default)]) with
  | .error err => some (.error err)
  | .ok b =>
    match convertBound param.Maximum with
    | none => none
    | some v1Max =>
      match convertBound param.ExclusiveMaximum with
      | none => none
      | some v1exMax =>
        match convertBound param.Minimum with
        | none => none
        | some v1Min =>
          match convertBound param.ExclusiveMinimum with
          | none => none
          | some v1exMin =>
            some (.ok
              { Name := param.Name,
                Title := param.Title,
                Type_ := param.Type_,
                Description := param.Description,
                Default := b,
                DeprecatedMaxLength := param.DeprecatedMaxlength,
                MaxLength := param.MaxLength,
                MinLength := param.MinLength,
                Pattern := param.Pattern,
                MultipleOf := param.MultipleOf,
                Maximum := v1Max,
                ExclusiveMaximum := v1exMax,
                ExclusiveMinimum := v1exMin,
                Minimum := v1Min,
                Enum := param.Enum,
                Required := param.Required,
                Updatable := param.Updatable,
                DisplayType := param.DisplayType,
                DisplayGroup := param.DisplayGroup })

/-- Either parameter loop of `convertPlanToCRD`, with the accumulators
`params` and `errs`; a failed conversion is recorded and skipped. -/
def convertPlanToCRDLoop (json : JSON) :
    List apb.ParameterDescriptor → List v1.Parameters → List Error →
      Option (List v1.Parameters × List Error)
  | [], params, errs => some (params, errs)
  | p :: rest, params, errs =>
    match convertParametersToCRD json p with
    | none => none
    | some (.error err) => convertPlanToCRDLoop json rest params (errs ++ [err])
    | some (.ok param) => convertPlanToCRDLoop json rest (params ++ [param]) errs

/-- Source: `convertPlanToCRD`, returning the pair `(plan, error)`.  The
variable `err` is the error of the metadata `json.Marshal`, nil once that
call has succeeded; the loops declare their own `err`.  The result is `none`
when the call panics. -/
def convertPlanToCRD (json : JSON) (plan : apb.Plan) : Option (v1.Plan × Option Error) :=
  match json.Marshal (.object plan.Metadata) with
  | .error err => some (v1.Plan.zero, some err)
  | .ok b =>
    let err : Option Error := none
    match convertPlanToCRDLoop json plan.Parameters [] [] with
    | none => none
    | some (params, errs) =>
      match convertPlanToCRDLoop json plan.BindParameters [] errs with
      | none => none
      | some (bindParams, errs) =>
        if errs.length > 0 then some (v1.Plan.zero, err)
        else
          some ({ ID := plan.ID,
                  Name := plan.Name,
                  Description := plan.Description,
                  Metadata := b,
                  Free := plan.Free,
                  Bindable := plan.Bindable,
                  UpdatesTo := plan.UpdatesTo,
                  Parameters := params,
                  BindParameters := bindParams }, none)

/-- The plan loop of `specToBundle`, with the accumulators `plans` and `errs`;
the returned plan is appended whether or not an error came with it. -/
def specToBundleLoop (json : JSON) :
    List apb.Plan → List v1.Plan → List Error → Option (List v1.Plan × List Error)
  | [], plans, errs => some (plans, errs)
  | specPlan :: rest, plans, errs =>
    match convertPlanToCRD json specPlan with
    | none => none
    | some (plan, some err) => specToBundleLoop json rest (plans ++ [plan]) (errs ++ [err])
    | some (plan, none) => specToBundleLoop json rest (plans ++ [plan]) errs

/-- Source: `specToBundle`.  The result is `none` when the call panics. -/
def specToBundle (json : JSON) (spec : apb.Spec) : Option (Except Error v1.BundleSpec) :=
  match json.Marshal (.object spec.Metadata) with
  | .error err => some (.error err)
  | .ok b =>
    match specToBundleLoop json spec.Plans [] [] with
    | none => none
    | some (plans, errs) =>
      if errs.length > 0 then some (.error (.arrayErrors errs))
      else
        some (.ok
          { Runtime := spec.Runtime,
            Version := spec.Version,
            FQName := spec.FQName,
            Image := spec.Image,
            Tags := spec.Tags,
            Bindable := spec.Bindable,
            Description := spec.Description,
            Async := convertToAsyncType spec.Async,
            Metadata := b,
            Plans := plans })

/-- The call `json.Unmarshal([]byte(s), &m)` of the external `encoding/json`
package for an empty `map[string]interface{}` target `m`: the entries of a
decoded object, no entry for a decoded `null`, and an error for a document
that does not decode or decodes to anything else. -/
def unmarshalObject (json : JSON) (s : String) : Except Error (List (String × Value)) :=
  match json.Unmarshal s with
  | .error err => .error err
  | .ok (.object entries) => .ok entries
  | .ok .null => .ok []
  | .ok _ => .error (.Other "json: cannot unmarshal into Go value of type map[string]interface {}")

/-- Go map read `m[k]` on a `map[string]interface{}`: nil when the key is
missing. -/
def valueIndex : List (String × Value) → String → Value
  | [], _ => .null
  | (k1, v) :: rest, k => if k1 = k then v else valueIndex rest k

/-- Source: `convertParametersToAPB`.  The result is `none` when the call
panics. -/
def convertParametersToAPB (json : JSON) (param : v1.Parameters) :
    Option (Except Error apb.ParameterDescriptor) :=
  match unmarshalObject json param.Default with
  | .error err => some (.error err)
  | .ok m =>
    let b := valueIndex m "default"
    match convertBound param.Maximum with
    | none => none
    | some v1Max =>
      match convertBound param.ExclusiveMaximum with
      | none => none
      | some v1exMax =>
        match convertBound param.Minimum with
        | none => none
        | some v1Min =>
          match convertBound param.ExclusiveMinimum with
          | none => none
          | some v1exMin =>
            some (.ok
              { Name := param.Name,
                Title := param.Title,
                Type_ := param.Type_,
                Description := param.Description,
                Default := b,
                DeprecatedMaxlength := param.DeprecatedMaxLength,
                MaxLength := param.MaxLength,
                MinLength := param.MinLength,
                Pattern := param.Pattern,
                MultipleOf := param.MultipleOf,
                Maximum := v1Max,
                ExclusiveMaximum := v1exMax,
                ExclusiveMinimum := v1exMin,
                Minimum := v1Min,
                Enum := param.Enum,
                Required := param.Required,
                Updatable := param.Updatable,
                DisplayType := param.DisplayType,
                DisplayGroup := param.DisplayGroup })

/-- Either parameter loop of `convertPlanToAPB`, with the accumulators
`params` and `errs`; a failed conversion is recorded and skipped. -/
def convertPlanToAPBLoop (json : JSON) :
    List v1.Parameters → List apb.ParameterDescriptor → List Error →
      Option (List apb.ParameterDescriptor × List Error)
  | [], params, errs => some (params, errs)
  | p :: rest, params, errs =>
    match convertParametersToAPB json p with
    | none => none
    | some (.error err) => convertPlanToAPBLoop json rest params (errs ++ [err])
    | some (.ok param) => convertPlanToAPBLoop json rest (params ++ [param]) errs

/-- Source: `convertPlanToAPB`.  The accumulated `errs` are not read after
the loops.  The result is `none` when the call panics. -/
def convertPlanToAPB (json : JSON) (plan : v1.Plan) : Option (Except Error apb.Plan) :=
  match unmarshalObject json plan.Metadata with
  | .error err => some (.error err)
  | .ok m =>
    match convertPlanToAPBLoop json plan.Parameters [] [] with
    | none => none
    | some (params, errs) =>
      match convertPlanToAPBLoop json plan.BindParameters [] errs with
      | none => none
      | some (bindParams, _) =>
        some (.ok
          { ID := plan.ID,
            Name := plan.Name,
            Description := plan.Description,
            Metadata := m,
            Free := plan.Free,
            Bindable := plan.Bindable,
            UpdatesTo := plan.UpdatesTo,
            Parameters := params,
            BindParameters := bindParams })

/-- The plan loop of `bundleToSpec`, with the accumulators `plans` and `errs`;
a failed conversion is recorded and skipped. -/
def bundleToSpecLoop (json : JSON) :
    List v1.Plan → List apb.Plan → List Error → Option (List apb.Plan × List Error)
  | [], plans, errs => some (plans, errs)
  | specPlan :: rest, plans, errs =>
    match convertPlanToAPB json specPlan with
    | none => none
    | some (.error err) => bundleToSpecLoop json rest plans (errs ++ [err])
    | some (.ok plan) => bundleToSpecLoop json rest (plans ++ [plan]) errs

/-- Source: `bundleToSpec`.  The result is `none` when the call panics. -/
def bundleToSpec (json : JSON) (spec : v1.BundleSpec) (id : String) :
    Option (Except Error apb.Spec) :=
  match unmarshalObject json spec.Metadata with
  | .error err => some (.error err)
  | .ok m =>
    match bundleToSpecLoop json spec.Plans [] [] with
    | none => none
    | some (plans, errs) =>
      if errs.length > 0 then some (.error (.arrayErrors errs))
      else
        some (.ok
          { ID := id,
            Runtime := spec.Runtime,
            Version := spec.Version,
            FQName := spec.FQName,
            Image := spec.Image,
            Tags := spec.Tags,
            Bindable := spec.Bindable,
            Description := spec.Description,
            Async := convertAsyncTypeToString spec.Async,
            Metadata := m,
            Plans := plans })

/-- Source: `convertServiceBindingToCRD`.  `str` is the method `UUID.String`
of the external `pborman/uuid` package. -/
def convertServiceBindingToCRD (json : JSON) (str : uuid.UUID → String)
    (bi : apb.BindInstance) : Except Error v1.ServiceBindingSpec :=
  let marshalled : Except Error String :=
    match bi.Parameters with
    | some p => json.Marshal (.object p)
    | none => .ok ""
  match marshalled with
  | .error err => .error err
  | .ok b =>
    .ok { ServiceInstanceID := str bi.ServiceID,
          Parameters := b,
          JobToken := bi.CreateJobKey }

/-- Go map write `bindingIDs[k] = v` on a `map[string]bool`. -/
def bindingSet : List (String × Bool) → String → Bool → List (String × Bool)
  | [], k, v => [(k, v)]
  | (k1, v1) :: rest, k, v =>
    if k1 = k then (k, v) :: rest else (k1, v1) :: bindingSet rest k v

/-- The `range si.BindingIDs` loop of `convertServiceInstanceToAPB`, with
the accumulator `bindingIDs`. -/
def bindingIDsToAPBLoop : List String → List (String × Bool) → List (String × Bool)
  | [], bindingIDs => bindingIDs
  | val :: rest, bindingIDs => bindingIDsToAPBLoop rest (bindingSet bindingIDs val true)

/-- Source: `convertServiceInstanceToAPB`.  `parse` is `uuid.Parse` of the
external `pborman/uuid` package; `spec` is a pointer that is stored as it
is. -/
def convertServiceInstanceToAPB (json : JSON) (parse : String → uuid.UUID)
    (si : v1.ServiceInstanceSpec) (spec : Option apb.Spec) (id : String) :
    Except Error apb.ServiceInstance :=
  let decoded : Except Error (List (String × Value)) :=
    if si.Parameters ≠ "" then unmarshalObject json si.Parameters else .ok []
  match decoded with
  | .error err => .error err
  | .ok parameters =>
    let bindingIDs := bindingIDsToAPBLoop si.BindingIDs []
    .ok { ID := parse id,
          Spec := spec,
          Context := some { Namespace := si.Context.Namespace,
                            Platform := si.Context.Plateform },
          Parameters := some parameters,
          BindingIDs := bindingIDs }

end dao

/-! ## `dao.go`: specs and bind instances -/

namespace dao

/-- Source: `Dao.SetSpec`.  The result is `none` when the conversion
panics. -/
def Dao.SetSpec (json : JSON) (d : Dao) (c : Cluster) (id : String) (spec : apb.Spec) :
    Option (Cluster × Option Error) :=
  match specToBundle json spec with
  | none => none
  | some (.error err) => some (c, some err)
  | some (.ok bundleSpec) =>
    let b : v1.Bundle :=
      { ObjectMeta := { Name := id, Namespace := d.namespace_, Labels := none },
        Spec := bundleSpec }
    match Bundles.Create c b with
    | (c1, .error err) => some (c1, some err)
    | (c1, .ok _) => some (c1, none)

/-- Source: `Dao.DeleteSpec`. -/
def Dao.DeleteSpec (_d : Dao) (c : Cluster) (specID : String) : Cluster × Option Error :=
  Bundles.Delete c specID

/-- Source: `Dao.BatchSetSpecs`.  The map `specs` is the list of its entries
in the order the `range` loop visits them.  The result is `none` when a
conversion panics. -/
def Dao.BatchSetSpecs (json : JSON) (d : Dao) (c : Cluster) :
    List (String × apb.Spec) → Option (Cluster × Option Error)
  | [] => some (c, none)
  | (id, spec) :: rest =>
    match d.SetSpec json c id spec with
    | none => none
    | some (c1, some err) => some (c1, some err)
    | some (c1, none) => Dao.BatchSetSpecs json d c1 rest

/-- The loop of `Dao.BatchGetSpecs` over the listed items, with the
accumulators `specs` and `errs`. -/
def batchGetSpecsLoop (json : JSON) :
    List v1.Bundle → List apb.Spec → List Error → Option (List apb.Spec × List Error)
  | [], specs, errs => some (specs, errs)
  | b :: rest, specs, errs =>
    match bundleToSpec json b.Spec b.ObjectMeta.Name with
    | none => none
    | some (.error err) => batchGetSpecsLoop json rest specs (errs ++ [err])
    | some (.ok spec) => batchGetSpecsLoop json rest (specs ++ [spec]) errs

/-- Source: `Dao.BatchGetSpecs`.  The `dir` argument is unused, as in the
source; the nil slice returned with a list error is the empty list.  The
result is `none` when a conversion panics. -/
def Dao.BatchGetSpecs (json : JSON) (_d : Dao) (c : Cluster) (_dir : String) :
    Option (Cluster × List apb.Spec × Option Error) :=
  match Bundles.List c [] with
  | (c1, .error err) => some (c1, [], some err)
  | (c1, .ok items) =>
    match batchGetSpecsLoop json items [] [] with
    | none => none
    | some (specs, errs) =>
      if errs.length > 0 then some (c1, specs, some (.arrayErrors errs))
      else some (c1, specs, none)

/-- Source: `Dao.BatchDeleteSpecs`. -/
def Dao.BatchDeleteSpecs (d : Dao) (c : Cluster) : List apb.Spec → Cluster × Option Error
  | [] => (c, none)
  | spec :: rest =>
    match d.DeleteSpec c spec.ID with
    | (c1, some err) => (c1, some err)
    | (c1, none) => Dao.BatchDeleteSpecs d c1 rest

/-- Source: `Dao.SetBindInstance`.  `str` is the method `UUID.String` of the
external `pborman/uuid` package. -/
def Dao.SetBindInstance (json : JSON) (str : uuid.UUID → String) (d : Dao) (c : Cluster)
    (id : String) (bindInstance : apb.BindInstance) : Cluster × Option Error :=
  match convertServiceBindingToCRD json str bindInstance with
  | .error err => (c, some err)
  | .ok b =>
    let bi : v1.ServiceBinding :=
      { ObjectMeta := { Name := id, Namespace := d.namespace_, Labels := none },
        Spec := b }
    match ServiceBindings.Create c bi with
    | (c1, .error err) => (c1, some err)
    | (c1, .ok _) => (c1, none)

end dao

/-! ## `deprovision_subscriber.go` -/

namespace broker

/-- The `JobMsg` notification, with the fields the deprovision subscriber
reads. -/
structure JobMsg where
  InstanceUUID : String
  State : apb.JobState
  deriving DecidableEq, Repr

/-- The methods of the `SubscriberDAO` interface the deprovision subscriber
calls, over a DAO state `σ`.  A result `none` is a call that panics. -/
structure SubscriberDAO (σ : Type) where
  SetState : σ → String → apb.JobState → Option (σ × String × Option Error)
  DeleteServiceInstance : σ → String → Option (σ × Option Error)

/-- Source: `cleanupDeprovision`. -/
def cleanupDeprovision {σ : Type} (id : String) (dao : SubscriberDAO σ) (s : σ) :
    Option (σ × Option Error) :=
  match dao.DeleteServiceInstance s id with
  | none => none
  | some (s1, some err) => some (s1, some err)
  | some (s1, none) => some (s1, none)

/-- Source: `setFailedDeprovisionJob`. -/
def setFailedDeprovisionJob {σ : Type} (dao : SubscriberDAO σ) (s : σ) (dmsg : JobMsg) :
    Option σ :=
  let dmsg : JobMsg := { dmsg with State := { dmsg.State with State := .StateFailed } }
  match dao.SetState s dmsg.InstanceUUID dmsg.State with
  | none => none
  | some (s1, _, _) => some s1

/-- Source: the body of the `for msg := range msgBuffer` loop of
`DeprovisionWorkSubscriber.Subscribe`: one processing cycle. -/
def DeprovisionWorkSubscriber.handle {σ : Type} (dao : SubscriberDAO σ) (s : σ)
    (msg : JobMsg) : Option σ :=
  match dao.SetState s msg.InstanceUUID msg.State with
  | none => none
  | some (s1, _, some _) => some s1
  | some (s1, _, none) =>
    if msg.State.State = .StateSucceeded then
      match cleanupDeprovision msg.InstanceUUID dao s1 with
      | none => none
      | some (s2, some _) => setFailedDeprovisionJob dao s2 msg
      | some (s2, none) => some s2
    else some s1

/-- Source: `DeprovisionWorkSubscriber.Subscribe`: the consumer loop, run on
the notifications delivered on the bus before it is closed, in delivery
order. -/
def DeprovisionWorkSubscriber.Subscribe {σ : Type} (dao : SubscriberDAO σ) (s : σ) :
    List JobMsg → Option σ
  | [] => some s
  | msg :: rest =>
    match DeprovisionWorkSubscriber.handle dao s msg with
    | none => none
    | some s1 => DeprovisionWorkSubscriber.Subscribe dao s1 rest

/-- A DAO call as observed by a recording DAO: the arguments and whether the
call returned a nil error. -/
inductive Call where
  | SetState (instanceID : String) (state : apb.JobState) (ok : Bool)
  | DeleteServiceInstance (id : String) (ok : Bool)
  deriving DecidableEq, Repr

/-- A DAO that forwards to `dao` and appends every call to a log, as the mock
DAO of the tests counts calls. -/
def recording {σ : Type} (dao : SubscriberDAO σ) : SubscriberDAO (σ × List Call) where
  SetState := fun s instanceID state =>
    match dao.SetState s.1 instanceID state with
    | none => none
    | some (s1, token, err) =>
      some ((s1, s.2 ++ [Call.SetState instanceID state err.isNone]), token, err)
  DeleteServiceInstance := fun s id =>
    match dao.DeleteServiceInstance s.1 id with
    | none => none
    | some (s1, err) => some ((s1, s.2 ++ [Call.DeleteServiceInstance id err.isNone]), err)

/-- The CRD-backed `Dao` as a `SubscriberDAO` over the cluster state. -/
def crdDAO (d : dao.Dao) : SubscriberDAO Cluster where
  SetState := fun c instanceID state => d.SetState c instanceID state
  DeleteServiceInstance := fun c id => some (d.DeleteServiceInstance c id)

end broker

/-! ## Specification vocabulary for the theorems -/

namespace broker

/-- The DAO calls one processing cycle for the notification `msg` can consist
of: a failed initial `SetState` alone; a successful one alone when the
reported state is not `Succeeded`; otherwise a successful one followed by the
cleanup delete and, when that delete failed, by one `SetState` of the failed
job state. -/
def isCycle (msg : JobMsg) (calls : List Call) : Prop :=
  calls = [Call.SetState msg.InstanceUUID msg.State false] ∨
  (msg.State.State ≠ .StateSucceeded ∧
    calls = [Call.SetState msg.InstanceUUID msg.State true]) ∨
  (msg.State.State = .StateSucceeded ∧
    calls = [Call.SetState msg.InstanceUUID msg.State true,
             Call.DeleteServiceInstance msg.InstanceUUID true]) ∨
  (msg.State.State = .StateSucceeded ∧ ∃ ok,
    calls = [Call.SetState msg.InstanceUUID msg.State true,
             Call.DeleteServiceInstance msg.InstanceUUID false,
             Call.SetState msg.InstanceUUID { msg.State with State := .StateFailed } ok])

/-- A DAO for examples whose state is a failure script: every call takes the
next entry and fails exactly when that entry is `true`. -/
def scriptedDAO : SubscriberDAO (List Bool) where
  SetState := fun s _ state =>
    match s with
    | true :: rest => some (rest, "", some (.Other "scripted failure"))
    | false :: rest => some (rest, state.Token, none)
    | [] => some ([], state.Token, none)
  DeleteServiceInstance := fun s _ =>
    match s with
    | true :: rest => some (rest, some (.Other "scripted failure"))
    | false :: rest => some (rest, none)
    | [] => some ([], none)

/-- An example notification: deprovision job `t1` of instance `i1`, with the
given state. -/
def exampleMsg (state : apb.State) : JobMsg :=
  { InstanceUUID := "i1",
    State := { Token := "t1", State := state, Podname := "pod", Method := .JobMethodDeprovision,
               Error := "", Description := "deprovision" } }

end broker

namespace dao

/-- The job-state object `Dao.SetState` creates for an unknown token. -/
def newJobState (d : Dao) (instanceID : String) (state : apb.JobState) : v1.JobState :=
  { ObjectMeta :=
      { Name := state.Token,
        Namespace := d.namespace_,
        Labels := some [(jobStateInstanceLabel, instanceID),
          (jobStateLabel, (convertStateToCRD state.State).format)] },
    Spec :=
      { State := convertStateToCRD state.State,
        Method := convertJobMethodToCRD state.Method,
        PodName := state.Podname,
        Error := state.Error,
        Description := state.Description } }

/-- The job-state object `Dao.SetState` writes over the fetched object `js`
whose label map is `labels`. -/
def updatedJobState (js : v1.JobState) (labels : List (String × String))
    (state : apb.JobState) : v1.JobState :=
  { ObjectMeta :=
      { js.ObjectMeta with
        Labels := some (labelSet labels jobStateLabel (convertStateToCRD state.State).format) },
    Spec :=
      { State := convertStateToCRD state.State,
        Method := convertJobMethodToCRD state.Method,
        PodName := state.Podname,
        Error := state.Error,
        Description := state.Description } }

/-- The job state a `GetStateByKey token` that the cluster API does not fail
reads from the cluster `c`. -/
def storedJobState (c : Cluster) (token : String) : Option apb.JobState :=
  match storeGet c.jobStates token with
  | none => none
  | some js =>
    match convertJobStateToAPB js.Spec js.ObjectMeta.Name with
    | .ok j => some j
    | .error _ => none

/-- Whether the cluster `c` holds a service-instance record called `id`. -/
def hasServiceInstance (c : Cluster) (id : String) : Bool :=
  (storeGet c.serviceInstances id).isSome

/-- The postcondition claimed for a `Succeeded` deprovision notification of
instance `id` with job token `token`: either the instance record is gone and
the stored job state is `Succeeded`, or the instance record is still there and
the stored job state is `Failed` with a non-empty error text. -/
def deprovisionPostcondition (c : Cluster) (id token : String) : Prop :=
  (hasServiceInstance c id = false ∧
    ∃ js, storedJobState c token = some js ∧ js.State = .StateSucceeded) ∨
  (hasServiceInstance c id = true ∧
    ∃ js, storedJobState c token = some js ∧ js.State = .StateFailed ∧ js.Error ≠ "")

/-- Whether the state is one of the four declared lifecycle states. -/
def declaredState : apb.State → Bool
  | .other _ => false
  | _ => true

/-- Whether the method is one of the five declared job methods. -/
def declaredMethod : apb.JobMethod → Bool
  | .other _ => false
  | _ => true

/-- A sequence of `SetState` calls (instance ID and job state each) applied
in order; `none` unless every call succeeds. -/
def SetStateAll (d : Dao) (c : Cluster) : List (String × apb.JobState) → Option Cluster
  | [] => some c
  | (instanceID, js) :: rest =>
    match d.SetState c instanceID js with
    | some (c1, _, none) => SetStateAll d c1 rest
    | _ => none

/-- The job state carried by the most recent call of the sequence for the
token, if there is one. -/
def latest : List (String × apb.JobState) → String → Option apb.JobState
  | [], _ => none
  | (_, js) :: rest, token =>
    match latest rest token with
    | some later => some later
    | none => if js.Token = token then some js else none

/-- The relation between a sequence of successful `SetState` calls and the
stored job-state objects it leaves: names are unique, every stored object
holds the spec and the state label of the latest call for its name, and
every token that was written has an object. -/
def jobStoreInv (hist : List (String × apb.JobState)) (objs : List v1.JobState) : Prop :=
  (objs.map fun o => o.ObjectMeta.Name).Nodup ∧
  (∀ name o, storeGet objs name = some o →
    ∃ js labels, latest hist name = some js ∧
      o.Spec = { State := convertStateToCRD js.State,
                 Method := convertJobMethodToCRD js.Method,
                 PodName := js.Podname, Error := js.Error, Description := js.Description } ∧
      o.ObjectMeta.Labels = some labels ∧
      labelGet labels jobStateLabel = some (convertStateToCRD js.State).format) ∧
  (∀ token js, latest hist token = some js → storeGet objs token ≠ none)

/-- The error part of an API call result. -/
def errorOf {α : Type} : Except Error α → Option Error
  | .ok _ => none
  | .error e => some e

/-- An example job state: deprovision job `token` in state `state`. -/
def exampleState (token : String) (state : apb.State) : apb.JobState :=
  { Token := token, State := state, Podname := "pod", Method := .JobMethodDeprovision,
    Error := "", Description := "deprovision" }

/-- Scenario D of the spec: three job states written with the states
`InProgress`, `Succeeded`, `InProgress`. -/
def scenarioD : List (String × apb.JobState) :=
  [("i1", exampleState "t1" .StateInProgress),
   ("i2", exampleState "t2" .StateSucceeded),
   ("i3", exampleState "t3" .StateInProgress)]

/-- An example `uuid.Parse`: the length of the text as the only byte, so that
texts of different lengths parse to different values. -/
def exampleParse (s : String) : uuid.UUID := some [s.length]

/-- An example DAO. -/
def exampleDao : Dao := { namespace_ := "broker" }

/-- An example service-instance record called `i1`. -/
def exampleInstance : v1.ServiceInstance :=
  { ObjectMeta := { Name := "i1", Namespace := "broker", Labels := none },
    Spec := { BundleID := "b1", Context := { Namespace := "apps", Plateform := "kubernetes" },
              Parameters := "", BindingIDs := [] } }

/-- An example cluster: it holds the instance record `i1` and no job state,
and its third API call fails. -/
def exampleCluster : Cluster :=
  { Cluster.empty [none, none, some (.Other "delete failed")] with
    serviceInstances := [exampleInstance] }

end dao

namespace dao

/-- A sequence of `SetState` calls (instance ID and job state each) applied
in order, whatever each call returns; `none` when a call panics. -/
def SetStateSeq (d : Dao) (c : Cluster) : List (String × apb.JobState) → Option Cluster
  | [] => some c
  | (instanceID, js) :: rest =>
    match d.SetState c instanceID js with
    | none => none
    | some (c1, _, _) => SetStateSeq d c1 rest

/-- The cluster after `DeleteSpec` was called for every spec of the list in
order, whatever each call returned. -/
def DeleteSpecAll (d : Dao) (c : Cluster) : List apb.Spec → Cluster
  | [] => c
  | spec :: rest => DeleteSpecAll d (d.DeleteSpec c spec.ID).1 rest

/-- The cluster after `SetSpec` was called for every entry of the list in
order, whatever each call returned (a call that panics ends the run). -/
def SetSpecAll (json : JSON) (d : Dao) (c : Cluster) : List (String × apb.Spec) → Cluster
  | [] => c
  | (id, spec) :: rest =>
    match d.SetSpec json c id spec with
    | none => c
    | some (c1, _) => SetSpecAll json d c1 rest

/-- The specs of the bundles that `bundleToSpec` converts, in list order. -/
def convertedSpecs (json : JSON) (bundles : List v1.Bundle) : List apb.Spec :=
  bundles.filterMap fun b =>
    match bundleToSpec json b.Spec b.ObjectMeta.Name with
    | some (.ok spec) => some spec
    | _ => none

/-- The errors of the bundles that `bundleToSpec` fails to convert, in list
order. -/
def conversionErrors (json : JSON) (bundles : List v1.Bundle) : List Error :=
  bundles.filterMap fun b =>
    match bundleToSpec json b.Spec b.ObjectMeta.Name with
    | some (.error err) => some err
    | _ => none

/-- A JSON codec for examples.  It encodes the empty object and the object
whose only entry is a nil `default`, fails on the object whose only entry is
an unsupported `default`, and decodes what it encodes. -/
def exampleJSON : JSON :=
  { Marshal := fun v =>
      match v with
      | .object [] => .ok "\x7b\x7d"
      | .object [("default", .null)] => .ok "\x7b\"default\":null\x7d"
      | .object [("default", .unsupported kind)] =>
        .error (.Other ("json: unsupported type: " ++ kind))
      | _ => .error (.Other "json: document outside the examples"),
    Unmarshal := fun s =>
      if s = "\x7b\x7d" then .ok (.object [])
      else if s = "\x7b\"default\":null\x7d" then .ok (.object [("default", .null)])
      else .error (.Other "invalid character") }

/-- An example parameter descriptor with the given default and maximum. -/
def exampleParameter (default : Value) (maximum : Option Float64) : apb.ParameterDescriptor :=
  { Name := "size", Title := "Size", Type_ := "number", Description := "", Default := default,
    DeprecatedMaxlength := 0, MaxLength := 0, MinLength := 0, Pattern := "",
    MultipleOf := { bits := 0 }, Maximum := maximum, ExclusiveMaximum := none,
    Minimum := none, ExclusiveMinimum := none, Enum := [], Required := false,
    Updatable := false, DisplayType := "", DisplayGroup := "" }

/-- An example persisted parameter with the given encoded default and
maximum. -/
def examplePersistedParameter (default : String) (maximum : Option Float64) : v1.Parameters :=
  { Name := "size", Title := "Size", Type_ := "number", Description := "", Default := default,
    DeprecatedMaxLength := 0, MaxLength := 0, MinLength := 0, Pattern := "",
    MultipleOf := { bits := 0 }, Maximum := maximum, ExclusiveMaximum := none,
    ExclusiveMinimum := none, Minimum := none, Enum := [], Required := false,
    Updatable := false, DisplayType := "", DisplayGroup := "" }

/-- An example plan with the given parameters. -/
def examplePlan (parameters : List apb.ParameterDescriptor) : apb.Plan :=
  { ID := "p1", Name := "default", Description := "", Metadata := [], Free := true,
    Bindable := false, UpdatesTo := [], Parameters := parameters, BindParameters := [] }

/-- An example persisted plan with the given parameters. -/
def examplePersistedPlan (parameters : List v1.Parameters) : v1.Plan :=
  { ID := "p1", Name := "default", Description := "", Metadata := "\x7b\x7d", Free := true,
    Bindable := false, UpdatesTo := [], Parameters := parameters, BindParameters := [] }

/-- An example spec called `id` with the given plans. -/
def exampleSpec (id : String) (plans : List apb.Plan) : apb.Spec :=
  { ID := id, Runtime := 2, Version := "1.0", FQName := "example-apb", Image := "example/apb",
    Tags := [], Bindable := false, Description := "", Async := "optional", Metadata := [],
    Plans := plans }

/-- An example persisted bundle spec with the given plans. -/
def exampleBundleSpec (plans : List v1.Plan) : v1.BundleSpec :=
  { Runtime := 2, Version := "1.0", FQName := "example-apb", Image := "example/apb",
    Tags := [], Bindable := false, Description := "", Async := .OptionalAsync,
    Metadata := "\x7b\x7d", Plans := plans }

/-- An example bundle object called `name` with the given encoded metadata
and no plans. -/
def exampleBundle (name metadata : String) : v1.Bundle :=
  { ObjectMeta := { Name := name, Namespace := "broker", Labels := none },
    Spec := { exampleBundleSpec [] with Metadata := metadata } }

/-- An example cluster holding the bundles `b1`, whose metadata decodes, and
`b2`, whose metadata does not. -/
def exampleBundleCluster : Cluster :=
  { Cluster.empty [] with
    bundles := [exampleBundle "b1" "\x7b\x7d", exampleBundle "b2" "not json"] }

/-- An example cluster holding the bundle `b1`, which has no plans, and the
bundle `b3`, whose plan has one parameter with the maximum 10. -/
def exampleBoundedBundleCluster : Cluster :=
  { Cluster.empty [] with
    bundles :=
      [exampleBundle "b1" "\x7b\x7d",
       { ObjectMeta := { Name := "b3", Namespace := "broker", Labels := none },
         Spec := exampleBundleSpec [examplePersistedPlan
           [examplePersistedParameter "\x7b\"default\":null\x7d"
             (some { bits := 4621819117588971520 })]] }] }

/-- An example `UUID.String`: the empty text for every value. -/
def exampleUUIDString (_u : uuid.UUID) : String := ""

/-- An example bind instance without parameters, created by job `job`. -/
def exampleBindInstance (job : String) : apb.BindInstance :=
  { ID := none, ServiceID := none, Parameters := none, CreateJobKey := job }

/-- An example service instance with the given binding IDs. -/
def exampleServiceInstance (bindingIDs : List (String × Bool)) : apb.ServiceInstance :=
  { ID := none, Spec := some (exampleSpec "b1" []),
    Context := some { Namespace := "apps", Platform := "kubernetes" },
    Parameters := none, BindingIDs := bindingIDs }

end dao

/-! ## Theorems: the deprovision work subscriber -/

open broker dao

/-- C2: for a notification whose state is not `Succeeded`, one processing
cycle of the subscriber makes exactly one DAO call, the `SetState` carrying
the instance ID and the job state of the notification unchanged; in
particular `DeleteServiceInstance` is not called. -/
theorem handle_not_succeeded_calls {σ : Type} (dao : SubscriberDAO σ) (s s1 : σ)
    (log : List Call) (msg : JobMsg) (token : String) (err : Option Error)
    (hstate : msg.State.State ≠ .StateSucceeded)
    (hset : dao.SetState s msg.InstanceUUID msg.State = some (s1, token, err)) :
    DeprovisionWorkSubscriber.handle (recording dao) (s, log) msg =
      some (s1, log ++ [Call.SetState msg.InstanceUUID msg.State err.isNone]) := by
  cases err <;>
    simp [DeprovisionWorkSubscriber.handle, recording, hset, hstate]

/-- Witness of C2: an `InProgress` notification on the scripted DAO. -/
theorem handle_not_succeeded_calls_witness :
    DeprovisionWorkSubscriber.handle (recording scriptedDAO) ([false, true], [])
        (exampleMsg .StateInProgress) =
      some ([true], [] ++ [Call.SetState (exampleMsg .StateInProgress).InstanceUUID
        (exampleMsg .StateInProgress).State (none : Option Error).isNone]) :=
  handle_not_succeeded_calls scriptedDAO [false, true] [true] [] (exampleMsg .StateInProgress)
    "t1" none (by decide) rfl

/-- C3: when the initial `SetState` of a notification fails, the processing
cycle consists of that call alone (no `DeleteServiceInstance`, no second
`SetState`); and in every completed cycle, for every behaviour of the DAO, a
`DeleteServiceInstance` call occurs only after the successful initial
`SetState` of the same notification, for the notification's instance. -/
theorem handle_delete_only_after_SetState {σ : Type} (dao : SubscriberDAO σ) (s : σ)
    (log : List Call) (msg : JobMsg) :
    (∀ s1 token e, dao.SetState s msg.InstanceUUID msg.State = some (s1, token, some e) →
      DeprovisionWorkSubscriber.handle (recording dao) (s, log) msg =
        some (s1, log ++ [Call.SetState msg.InstanceUUID msg.State false])) ∧
    (∀ s2 log2, DeprovisionWorkSubscriber.handle (recording dao) (s, log) msg = some (s2, log2) →
      ∃ ok rest, log2 = log ++ Call.SetState msg.InstanceUUID msg.State ok :: rest ∧
        ∀ id okd, Call.DeleteServiceInstance id okd ∈ rest →
          ok = true ∧ id = msg.InstanceUUID ∧
            ∃ s1 token, dao.SetState s msg.InstanceUUID msg.State = some (s1, token, none)) := by
  refine ⟨?_, ?_⟩
  · intro s1 token e hset
    simp [DeprovisionWorkSubscriber.handle, recording, hset]
  · intro s2 log2 h
    unfold DeprovisionWorkSubscriber.handle at h
    rcases hset : dao.SetState s msg.InstanceUUID msg.State with _ | ⟨s1, token, err⟩
    · simp [recording, hset] at h
    · cases err with
      | some e =>
        simp [recording, hset] at h
        exact ⟨false, [], by simp [h.2.symm], by simp⟩
      | none =>
        by_cases hst : msg.State.State = .StateSucceeded
        · rcases hdel : dao.DeleteServiceInstance s1 msg.InstanceUUID with _ | ⟨s3, derr⟩
          · simp [recording, hset, hst, cleanupDeprovision, hdel] at h
          · cases derr with
            | none =>
              simp [recording, hset, hst, cleanupDeprovision, hdel] at h
              refine ⟨true, [Call.DeleteServiceInstance msg.InstanceUUID true], by simp [h.2.symm], ?_⟩
              intro id okd hmem
              simp at hmem
              exact ⟨rfl, hmem.1, s1, token, rfl⟩
            | some e =>
              simp only [recording, hset, hst, cleanupDeprovision, hdel, setFailedDeprovisionJob] at h
              rcases hset2 : dao.SetState s3 msg.InstanceUUID
                { msg.State with State := .StateFailed } with _ | ⟨s4, token4, err4⟩
              · simp [hset2] at h
              · simp [hset2] at h
                refine ⟨true, [Call.DeleteServiceInstance msg.InstanceUUID false,
                  Call.SetState msg.InstanceUUID { msg.State with State := .StateFailed }
                    err4.isNone], by simp [h.2.symm], ?_⟩
                intro id okd hmem
                simp at hmem
                exact ⟨rfl, hmem.1, s1, token, rfl⟩
        · simp [recording, hset, hst] at h
          exact ⟨true, [], by simp [h.2.symm], by simp⟩

/-- Witness of C3: on the scripted DAO whose first call fails, the cycle of a
`Succeeded` notification is the failed `SetState` alone. -/
theorem handle_delete_only_after_SetState_witness :
    DeprovisionWorkSubscriber.handle (recording scriptedDAO) ([true, false], [])
        (exampleMsg .StateSucceeded) =
      some ([false], [] ++ [Call.SetState (exampleMsg .StateSucceeded).InstanceUUID
        (exampleMsg .StateSucceeded).State false]) :=
  (handle_delete_only_after_SetState scriptedDAO [true, false] []
    (exampleMsg .StateSucceeded)).1 [false] "" (.Other "scripted failure") rfl

/-- C4: when the initial `SetState` of a `Succeeded` notification succeeds and
`DeleteServiceInstance` then fails, the cycle makes exactly one further DAO
call: a `SetState` with the same instance ID and a job state that has the
token, method, pod name, description and error of the notification and the
state `Failed`.  Whether or not that call fails, nothing follows it. -/
theorem handle_failed_cleanup_calls {σ : Type} (dao : SubscriberDAO σ) (s s1 s2 s3 : σ)
    (log : List Call) (msg : JobMsg) (token token3 : String) (e : Error) (err3 : Option Error)
    (hstate : msg.State.State = .StateSucceeded)
    (hset : dao.SetState s msg.InstanceUUID msg.State = some (s1, token, none))
    (hdel : dao.DeleteServiceInstance s1 msg.InstanceUUID = some (s2, some e))
    (hset2 : dao.SetState s2 msg.InstanceUUID
      { Token := msg.State.Token, State := .StateFailed, Podname := msg.State.Podname,
        Method := msg.State.Method, Error := msg.State.Error,
        Description := msg.State.Description } = some (s3, token3, err3)) :
    DeprovisionWorkSubscriber.handle (recording dao) (s, log) msg =
      some (s3, log ++
        [Call.SetState msg.InstanceUUID msg.State true,
         Call.DeleteServiceInstance msg.InstanceUUID false,
         Call.SetState msg.InstanceUUID
           { Token := msg.State.Token, State := .StateFailed, Podname := msg.State.Podname,
             Method := msg.State.Method, Error := msg.State.Error,
             Description := msg.State.Description } err3.isNone]) := by
  simp [DeprovisionWorkSubscriber.handle, recording, hset, hstate, cleanupDeprovision, hdel,
    setFailedDeprovisionJob, hset2]

/-- Witness of C4: on the scripted DAO the delete fails and the follow-up
`SetState` fails as well. -/
theorem handle_failed_cleanup_calls_witness :
    DeprovisionWorkSubscriber.handle (recording scriptedDAO) ([false, true, true, false], [])
        (exampleMsg .StateSucceeded) =
      some ([false], [] ++
        [Call.SetState "i1" (exampleMsg .StateSucceeded).State true,
         Call.DeleteServiceInstance "i1" false,
         Call.SetState "i1"
           { Token := "t1", State := .StateFailed, Podname := "pod",
             Method := .JobMethodDeprovision, Error := "",
             Description := "deprovision" } (some (Error.Other "scripted failure")).isNone]) :=
  handle_failed_cleanup_calls scriptedDAO [false, true, true, false] [true, true, false]
    [true, false] [false] [] (exampleMsg .StateSucceeded) "t1" ""
    (.Other "scripted failure") (some (.Other "scripted failure")) rfl rfl rfl rfl

/-- Every processing cycle of a DAO that never panics completes, and the DAO
calls it makes form a cycle for the notification. -/
theorem handle_isCycle {σ : Type} (dao : SubscriberDAO σ)
    (hSet : ∀ s id js, (dao.SetState s id js).isSome = true)
    (hDel : ∀ s id, (dao.DeleteServiceInstance s id).isSome = true)
    (s : σ) (log : List Call) (msg : JobMsg) :
    ∃ s1 calls, DeprovisionWorkSubscriber.handle (recording dao) (s, log) msg =
      some (s1, log ++ calls) ∧ isCycle msg calls := by
  rcases hset : dao.SetState s msg.InstanceUUID msg.State with _ | ⟨s1, token, err⟩
  · have := hSet s msg.InstanceUUID msg.State
    simp [hset] at this
  cases err with
  | some e =>
    exact ⟨s1, _, by simp [DeprovisionWorkSubscriber.handle, recording, hset], Or.inl rfl⟩
  | none =>
    by_cases hst : msg.State.State = .StateSucceeded
    · rcases hdel : dao.DeleteServiceInstance s1 msg.InstanceUUID with _ | ⟨s2, derr⟩
      · have := hDel s1 msg.InstanceUUID
        simp [hdel] at this
      cases derr with
      | none =>
        exact ⟨s2, _, by simp [DeprovisionWorkSubscriber.handle, recording, hset, hst,
          cleanupDeprovision, hdel], Or.inr (Or.inr (Or.inl ⟨hst, rfl⟩))⟩
      | some e =>
        rcases hset2 : dao.SetState s2 msg.InstanceUUID
          { msg.State with State := .StateFailed } with _ | ⟨s3, token3, err3⟩
        · have := hSet s2 msg.InstanceUUID { msg.State with State := .StateFailed }
          simp [hset2] at this
        exact ⟨s3, _, by simp [DeprovisionWorkSubscriber.handle, recording, hset, hst,
          cleanupDeprovision, hdel, setFailedDeprovisionJob, hset2],
          Or.inr (Or.inr (Or.inr ⟨hst, err3.isNone, rfl⟩))⟩
    · exact ⟨s1, _, by simp [DeprovisionWorkSubscriber.handle, recording, hset, hst],
        Or.inr (Or.inl ⟨hst, rfl⟩)⟩

/-- C5: for every DAO that never panics, whatever calls it fails, and every
finite sequence of `k` notifications delivered before the bus is closed, the
subscriber completes and the DAO calls it makes split into exactly `k`
consecutive processing cycles, the `i`-th being a cycle for the `i`-th
notification and so starting with the initial `SetState` of that
notification. -/
theorem Subscribe_processes_every_notification {σ : Type} (dao : SubscriberDAO σ)
    (hSet : ∀ s id js, (dao.SetState s id js).isSome = true)
    (hDel : ∀ s id, (dao.DeleteServiceInstance s id).isSome = true)
    (msgs : List JobMsg) (s : σ) (log : List Call) :
    ∃ s1 cycles, DeprovisionWorkSubscriber.Subscribe (recording dao) (s, log) msgs =
        some (s1, log ++ cycles.flatten) ∧
      cycles.length = msgs.length ∧
      List.Forall₂ isCycle msgs cycles ∧
      ∀ i (hi : i < msgs.length) (hc : i < cycles.length), ∃ ok rest,
        cycles[i] = Call.SetState msgs[i].InstanceUUID msgs[i].State ok :: rest := by
  induction msgs generalizing s log with
  | nil => exact ⟨s, [], by simp [DeprovisionWorkSubscriber.Subscribe], rfl, List.Forall₂.nil,
      by simp⟩
  | cons msg rest ih =>
    obtain ⟨s1, calls, hh, hcyc⟩ := handle_isCycle dao hSet hDel s log msg
    obtain ⟨s2, cycles, hrun, hlen, hall, hidx⟩ := ih s1 (log ++ calls)
    refine ⟨s2, calls :: cycles, ?_, by simp [hlen], List.Forall₂.cons hcyc hall, ?_⟩
    · simp [DeprovisionWorkSubscriber.Subscribe, hh, hrun, List.append_assoc]
    · intro i hi hc
      cases i with
      | zero =>
        simp only [List.getElem_cons_zero]
        rcases hcyc with h | ⟨_, h⟩ | ⟨_, h⟩ | ⟨_, ok, h⟩ <;> simp [h]
      | succ j =>
        simp only [List.getElem_cons_succ]
        exact hidx j (by simpa using hi) (by simpa using hc)

/-- Witness of C5: three notifications on the scripted DAO, the first of which
fails to persist. -/
theorem Subscribe_processes_every_notification_witness :
    ∃ s1 cycles, DeprovisionWorkSubscriber.Subscribe (recording scriptedDAO)
        ([true, false, true], [])
        [exampleMsg .StateInProgress, exampleMsg .StateSucceeded, exampleMsg .StateFailed] =
        some (s1, [] ++ cycles.flatten) ∧
      cycles.length =
        [exampleMsg .StateInProgress, exampleMsg .StateSucceeded, exampleMsg .StateFailed].length ∧
      List.Forall₂ isCycle
        [exampleMsg .StateInProgress, exampleMsg .StateSucceeded, exampleMsg .StateFailed] cycles ∧
      ∀ i (hi : i < [exampleMsg .StateInProgress, exampleMsg .StateSucceeded,
          exampleMsg .StateFailed].length) (hc : i < cycles.length), ∃ ok rest,
        cycles[i] = Call.SetState
          ([exampleMsg .StateInProgress, exampleMsg .StateSucceeded,
            exampleMsg .StateFailed][i]).InstanceUUID
          ([exampleMsg .StateInProgress, exampleMsg .StateSucceeded,
            exampleMsg .StateFailed][i]).State ok :: rest :=
  Subscribe_processes_every_notification scriptedDAO
    (by intro s id js; rcases s with _ | ⟨b, r⟩ <;> [rfl; (cases b <;> rfl)])
    (by intro s id; rcases s with _ | ⟨b, r⟩ <;> [rfl; (cases b <;> rfl)])
    [exampleMsg .StateInProgress, exampleMsg .StateSucceeded, exampleMsg .StateFailed]
    [true, false, true] []

/-! ## Lemmas: the cluster API model -/

theorem storeGet_name {α : Type} (objs : List (v1.Object α)) (name : String) (o : v1.Object α)
    (h : storeGet objs name = some o) : o.ObjectMeta.Name = name := by
  induction objs with
  | nil => simp [storeGet] at h
  | cons x rest ih =>
    unfold storeGet at h
    split at h
    · cases h; assumption
    · exact ih h

theorem storeGet_append {α : Type} (objs : List (v1.Object α)) (o : v1.Object α) (name : String) :
    storeGet (objs ++ [o]) name =
      match storeGet objs name with
      | some x => some x
      | none => if o.ObjectMeta.Name = name then some o else none := by
  induction objs with
  | nil => simp [storeGet]
  | cons x rest ih =>
    by_cases hx : x.ObjectMeta.Name = name
    · simp [storeGet, hx]
    · simp [storeGet, hx, ih]

theorem storeGet_replace_same {α : Type} (objs : List (v1.Object α)) (o x : v1.Object α)
    (h : storeGet objs o.ObjectMeta.Name = some x) :
    storeGet (storeReplace objs o) o.ObjectMeta.Name = some o := by
  induction objs with
  | nil => simp [storeGet] at h
  | cons y rest ih =>
    by_cases hy : y.ObjectMeta.Name = o.ObjectMeta.Name
    · simp [storeReplace, hy, storeGet]
    · simp [storeGet, hy] at h
      simp [storeReplace, hy, storeGet, ih h]

theorem storeGet_replace_other {α : Type} (objs : List (v1.Object α)) (o : v1.Object α)
    (name : String) (h : name ≠ o.ObjectMeta.Name) :
    storeGet (storeReplace objs o) name = storeGet objs name := by
  induction objs with
  | nil => simp [storeReplace]
  | cons y rest ih =>
    by_cases hy : y.ObjectMeta.Name = o.ObjectMeta.Name
    · have : ¬ o.ObjectMeta.Name = name := fun e => h e.symm
      have hy2 : ¬ y.ObjectMeta.Name = name := fun e => h (e.symm.trans hy)
      simp [storeReplace, hy, storeGet, this, hy2]
    · by_cases hn : y.ObjectMeta.Name = name
      · simp [storeReplace, hy, storeGet, hn, h]
      · simp [storeReplace, hy, storeGet, hn, ih]

theorem storeGet_remove_same {α : Type} (objs : List (v1.Object α)) (name : String) :
    storeGet (storeRemove objs name) name = none := by
  induction objs with
  | nil => simp [storeRemove, storeGet]
  | cons y rest ih =>
    simp only [storeRemove, ne_eq, decide_not] at ih ⊢
    by_cases hy : y.ObjectMeta.Name = name
    · simpa [hy] using ih
    · simp [hy, storeGet, ih]

@[simp] theorem Cluster_logged_jobStates (c : Cluster) (a : ClientAction) :
    (c.logged a).jobStates = c.jobStates := rfl

@[simp] theorem Cluster_logged_serviceInstances (c : Cluster) (a : ClientAction) :
    (c.logged a).serviceInstances = c.serviceInstances := rfl

@[simp] theorem Cluster_logged_actions (c : Cluster) (a : ClientAction) :
    (c.logged a).actions = c.actions ++ [a] := rfl

@[simp] theorem Cluster_logged_faults (c : Cluster) (a : ClientAction) :
    (c.logged a).faults = c.faults.tail := rfl

theorem JobStates_Get_eq (c : Cluster) (name : String) :
    JobStates.Get c name =
      (c.logged (.Get .JobStates name),
        match c.nextFault with
        | some e => .error e
        | none =>
          match storeGet c.jobStates name with
          | some o => .ok o
          | none => .error .NotFound) := by
  unfold JobStates.Get Cluster.call
  cases c.nextFault with
  | some e => rfl
  | none =>
    simp only [Cluster_logged_jobStates]
    cases storeGet c.jobStates name <;> rfl

theorem JobStates_Create_eq (c : Cluster) (obj : v1.JobState) :
    JobStates.Create c obj =
      match c.nextFault with
      | some e => (c.logged (.Create .JobStates obj.ObjectMeta.Name), .error e)
      | none =>
        match storeGet c.jobStates obj.ObjectMeta.Name with
        | some _ => (c.logged (.Create .JobStates obj.ObjectMeta.Name), .error .AlreadyExists)
        | none =>
          ({ c.logged (.Create .JobStates obj.ObjectMeta.Name) with
              jobStates := c.jobStates ++ [obj] }, .ok obj) := by
  unfold JobStates.Create Cluster.call
  cases c.nextFault with
  | some e => rfl
  | none => rfl

theorem JobStates_Update_eq (c : Cluster) (obj : v1.JobState) :
    JobStates.Update c obj =
      match c.nextFault with
      | some e => (c.logged (.Update .JobStates obj.ObjectMeta.Name), .error e)
      | none =>
        match storeGet c.jobStates obj.ObjectMeta.Name with
        | some _ =>
          ({ c.logged (.Update .JobStates obj.ObjectMeta.Name) with
              jobStates := storeReplace c.jobStates obj }, .ok obj)
        | none => (c.logged (.Update .JobStates obj.ObjectMeta.Name), .error .NotFound) := by
  unfold JobStates.Update Cluster.call
  cases c.nextFault with
  | some e => rfl
  | none => rfl

theorem SetState_ok (d : Dao) (c c1 : Cluster) (instanceID token : String) (state : apb.JobState)
    (h : d.SetState c instanceID state = some (c1, token, none)) :
    token = state.Token ∧ c1.serviceInstances = c.serviceInstances ∧
    ((∃ js labels, storeGet c.jobStates state.Token = some js ∧
        js.ObjectMeta.Labels = some labels ∧
        c1.jobStates = storeReplace c.jobStates (updatedJobState js labels state)) ∨
     (storeGet c.jobStates state.Token = none ∧
        c1.jobStates = c.jobStates ++ [newJobState d instanceID state])) := by
  unfold Dao.SetState at h
  simp only [convertJobStateToCRD, JobStates_Get_eq] at h
  cases hf : c.nextFault with
  | some e =>
    simp only [hf, JobStates_Create_eq, Cluster_logged_jobStates] at h
    cases hf2 : (c.logged (.Get .JobStates state.Token)).nextFault with
    | some e2 => simp [hf2] at h
    | none =>
      cases hg : storeGet c.jobStates state.Token with
      | some o => simp [hf2, hg] at h
      | none =>
        simp [hf2, hg] at h
        obtain ⟨h1, h2⟩ := h
        subst h1
        simp [newJobState, h2]
  | none =>
    cases hg : storeGet c.jobStates state.Token with
    | none =>
      simp only [hf, hg, JobStates_Create_eq, Cluster_logged_jobStates] at h
      cases hf2 : (c.logged (.Get .JobStates state.Token)).nextFault with
      | some e2 => simp [hf2] at h
      | none =>
        simp [hf2] at h
        obtain ⟨h1, h2⟩ := h
        subst h1
        simp [newJobState, h2]
    | some js =>
      simp only [hf, hg] at h
      cases hl : js.ObjectMeta.Labels with
      | none => simp [hl] at h
      | some labels =>
        have hn := storeGet_name _ _ _ hg
        simp only [hl, JobStates_Update_eq, Cluster_logged_jobStates, hn, hg] at h
        cases hf2 : (c.logged (.Get .JobStates state.Token)).nextFault with
        | some e2 => simp [hf2] at h
        | none =>
          simp [hf2] at h
          obtain ⟨h1, h2⟩ := h
          subst h1
          refine ⟨h2.symm, by simp, Or.inl ⟨js, labels, rfl, hl, ?_⟩⟩
          simp [updatedJobState, hn]

theorem storeReplace_self {α : Type} (objs : List (v1.Object α)) (o : v1.Object α)
    (h : storeGet objs o.ObjectMeta.Name = some o) : storeReplace objs o = objs := by
  induction objs with
  | nil => rfl
  | cons y rest ih =>
    by_cases hy : y.ObjectMeta.Name = o.ObjectMeta.Name
    · simp [storeGet, hy] at h
      simp [storeReplace, hy, h]
    · simp [storeGet, hy] at h
      simp [storeReplace, hy, ih h]

theorem labelGet_labelSet_same (labels : List (String × String)) (k v : String) :
    labelGet (labelSet labels k v) k = some v := by
  induction labels with
  | nil => simp [labelSet, labelGet]
  | cons x rest ih =>
    obtain ⟨k1, v1⟩ := x
    by_cases hk : k1 = k
    · simp [labelSet, labelGet, hk]
    · simp [labelSet, labelGet, hk, ih]

theorem labelGet_labelSet_other (labels : List (String × String)) (k v k2 : String)
    (h : k2 ≠ k) : labelGet (labelSet labels k v) k2 = labelGet labels k2 := by
  induction labels with
  | nil =>
    have : ¬ k = k2 := fun e => h e.symm
    simp [labelSet, labelGet, this]
  | cons x rest ih =>
    obtain ⟨k1, v1⟩ := x
    by_cases hk : k1 = k
    · have h1 : ¬ k = k2 := fun e => h e.symm
      have h2 : ¬ k1 = k2 := fun e => h (e.symm.trans hk)
      simp [labelSet, labelGet, hk, h1]
    · by_cases hk2 : k1 = k2
      · simp [labelSet, labelGet, hk, hk2, h]
      · simp [labelSet, labelGet, hk, hk2, ih]

theorem labelSet_idem (labels : List (String × String)) (k v : String) :
    labelSet (labelSet labels k v) k v = labelSet labels k v := by
  induction labels with
  | nil => simp [labelSet]
  | cons x rest ih =>
    obtain ⟨k1, v1⟩ := x
    by_cases hk : k1 = k
    · simp [labelSet, hk]
    · simp [labelSet, hk, ih]

/-- What a successful `SetState` leaves in the store under the token. -/
theorem SetState_ok_stored (d : Dao) (c c1 : Cluster) (instanceID token : String)
    (state : apb.JobState) (h : d.SetState c instanceID state = some (c1, token, none)) :
    ∃ (meta_ : v1.ObjectMeta) (labels : List (String × String)), storeGet c1.jobStates state.Token =
        some { ObjectMeta := { meta_ with Name := state.Token, Labels := some labels },
               Spec := { State := convertStateToCRD state.State,
                         Method := convertJobMethodToCRD state.Method,
                         PodName := state.Podname,
                         Error := state.Error,
                         Description := state.Description } } ∧
      labelGet labels jobStateLabel = some (convertStateToCRD state.State).format ∧
      labelSet labels jobStateLabel (convertStateToCRD state.State).format = labels ∧
      labelGet labels jobStateInstanceLabel =
        match storeGet c.jobStates state.Token with
        | none => some instanceID
        | some old => labelGet (old.ObjectMeta.Labels.getD []) jobStateInstanceLabel := by
  obtain ⟨_, _, hcase⟩ := SetState_ok d c c1 instanceID token state h
  rcases hcase with ⟨js, labels, hg, hl, hj⟩ | ⟨hg, hj⟩
  · have hn := storeGet_name _ _ _ hg
    have hg2 : storeGet c.jobStates (updatedJobState js labels state).ObjectMeta.Name = some js := by
      simpa [updatedJobState, hn] using hg
    have := storeGet_replace_same _ _ _ hg2
    refine ⟨js.ObjectMeta, labelSet labels jobStateLabel (convertStateToCRD state.State).format,
      ?_, labelGet_labelSet_same _ _ _, labelSet_idem _ _ _, ?_⟩
    · rw [hj]
      simpa [updatedJobState, hn] using this
    · rw [hg, labelGet_labelSet_other _ _ _ _ (by decide)]
      simp [hl]
  · refine ⟨(newJobState d instanceID state).ObjectMeta, [(jobStateInstanceLabel, instanceID),
      (jobStateLabel, (convertStateToCRD state.State).format)], ?_, ?_, ?_, ?_⟩
    · rw [hj, storeGet_append, hg]
      simp [newJobState]
    · simp [labelGet, jobStateInstanceLabel, jobStateLabel]
    · simp [labelSet, jobStateInstanceLabel, jobStateLabel]
    · simp [hg, labelGet]

/-- A failing `SetState` leaves the stored objects as they were. -/
theorem SetState_err_unchanged (d : Dao) (c c1 : Cluster) (instanceID token : String)
    (state : apb.JobState) (e : Error)
    (h : d.SetState c instanceID state = some (c1, token, some e)) :
    c1.jobStates = c.jobStates ∧ c1.serviceInstances = c.serviceInstances := by
  unfold Dao.SetState at h
  simp only [convertJobStateToCRD, JobStates_Get_eq] at h
  cases hf : c.nextFault with
  | some e =>
    simp only [hf, JobStates_Create_eq, Cluster_logged_jobStates] at h
    cases hf2 : (c.logged (.Get .JobStates state.Token)).nextFault with
    | some e2 =>
      simp [hf2] at h
      simp [← h.1]
    | none =>
      cases hg : storeGet c.jobStates state.Token with
      | some o =>
        simp [hf2, hg] at h
        simp [← h.1]
      | none => simp [hf2, hg] at h
  | none =>
    cases hg : storeGet c.jobStates state.Token with
    | none =>
      simp only [hf, hg, JobStates_Create_eq, Cluster_logged_jobStates] at h
      cases hf2 : (c.logged (.Get .JobStates state.Token)).nextFault with
      | some e2 =>
        simp [hf2] at h
        simp [← h.1]
      | none => simp [hf2] at h
    | some js =>
      simp only [hf, hg] at h
      cases hl : js.ObjectMeta.Labels with
      | none => simp [hl] at h
      | some labels =>
        have hn := storeGet_name _ _ _ hg
        simp only [hl, JobStates_Update_eq, Cluster_logged_jobStates, hn, hg] at h
        cases hf2 : (c.logged (.Get .JobStates state.Token)).nextFault with
        | some e2 =>
          simp [hf2] at h
          simp [← h.1]
        | none => simp [hf2] at h

/-- The call `SetState` panics only on a fetched object without a label map. -/
theorem SetState_isSome (d : Dao) (c : Cluster) (instanceID : String) (state : apb.JobState)
    (hl : ∀ js, storeGet c.jobStates state.Token = some js → js.ObjectMeta.Labels ≠ none) :
    ∃ c1 token err, d.SetState c instanceID state = some (c1, token, err) := by
  unfold Dao.SetState
  simp only [convertJobStateToCRD, JobStates_Get_eq]
  cases hf : c.nextFault with
  | some e =>
    simp only [JobStates_Create_eq, Cluster_logged_jobStates]
    cases hf2 : (c.logged (.Get .JobStates state.Token)).nextFault with
    | some e2 => simp
    | none =>
      cases hg : storeGet c.jobStates state.Token with
      | some o => simp
      | none => simp
  | none =>
    cases hg : storeGet c.jobStates state.Token with
    | none =>
      simp only [JobStates_Create_eq, Cluster_logged_jobStates]
      cases hf2 : (c.logged (.Get .JobStates state.Token)).nextFault with
      | some e2 => simp
      | none => simp [hg]
    | some js =>
      simp only
      cases hlab : js.ObjectMeta.Labels with
      | none => exact absurd hlab (hl js hg)
      | some labels =>
        have hn := storeGet_name _ _ _ hg
        simp only [JobStates_Update_eq, Cluster_logged_jobStates, hn, hg]
        cases hf2 : (c.logged (.Get .JobStates state.Token)).nextFault with
        | some e2 => simp
        | none => simp

theorem ServiceInstances_Delete_eq (c : Cluster) (name : String) :
    ServiceInstances.Delete c name =
      match c.nextFault with
      | some e => (c.logged (.Delete .ServiceInstances name), some e)
      | none =>
        match storeGet c.serviceInstances name with
        | some _ =>
          ({ c.logged (.Delete .ServiceInstances name) with
              serviceInstances := storeRemove c.serviceInstances name }, none)
        | none => (c.logged (.Delete .ServiceInstances name), some .NotFound) := by
  unfold ServiceInstances.Delete Cluster.call
  cases c.nextFault with
  | some e => rfl
  | none => rfl

/-- A `DeleteServiceInstance` never touches the job states; when it succeeds
the instance record is gone, when it fails the instance records are as they
were. -/
theorem DeleteServiceInstance_effect (d : Dao) (c : Cluster) (id : String) :
    (d.DeleteServiceInstance c id).1.jobStates = c.jobStates ∧
    ((d.DeleteServiceInstance c id).2 = none →
      hasServiceInstance (d.DeleteServiceInstance c id).1 id = false) ∧
    (∀ e, (d.DeleteServiceInstance c id).2 = some e →
      (d.DeleteServiceInstance c id).1.serviceInstances = c.serviceInstances) := by
  unfold Dao.DeleteServiceInstance
  rw [ServiceInstances_Delete_eq]
  cases c.nextFault with
  | some e => simp
  | none =>
    cases hg : storeGet c.serviceInstances id with
    | some o => simp [hasServiceInstance, storeGet_remove_same]
    | none => simp

/-- C1 (as amended): for every notification with state `Succeeded` whose
initial `SetState` on the CRD-backed DAO succeeds, the processing cycle
completes, and: if `DeleteServiceInstance` succeeds, the service-instance
record is absent and the stored job state is the notification's, state
`Succeeded`; if it fails, the service-instance records are as before the
notification, and the stored job state is the notification's with state
`Failed` and the error text of the notification (which may be empty) when the
follow-up `SetState` succeeds, and still `Succeeded` when that call fails. -/
theorem handle_succeeded_outcome (d : Dao) (c c1 : Cluster) (msg : JobMsg) (token : String)
    (hstate : msg.State.State = .StateSucceeded)
    (hset : d.SetState c msg.InstanceUUID msg.State = some (c1, token, none)) :
    ∃ c3, DeprovisionWorkSubscriber.handle (crdDAO d) c msg = some c3 ∧
      ((d.DeleteServiceInstance c1 msg.InstanceUUID).2 = none →
        hasServiceInstance c3 msg.InstanceUUID = false ∧
        storedJobState c3 msg.State.Token =
          some { Token := msg.State.Token, State := .StateSucceeded,
                 Podname := msg.State.Podname,
                 Method := convertJobMethodToAPB (convertJobMethodToCRD msg.State.Method),
                 Error := msg.State.Error, Description := msg.State.Description }) ∧
      (∀ e, (d.DeleteServiceInstance c1 msg.InstanceUUID).2 = some e →
        c3.serviceInstances = c.serviceInstances ∧
        ∃ token3 err3,
          d.SetState (d.DeleteServiceInstance c1 msg.InstanceUUID).1 msg.InstanceUUID
            { msg.State with State := .StateFailed } = some (c3, token3, err3) ∧
          (err3 = none →
            storedJobState c3 msg.State.Token =
              some { Token := msg.State.Token, State := .StateFailed,
                     Podname := msg.State.Podname,
                     Method := convertJobMethodToAPB (convertJobMethodToCRD msg.State.Method),
                     Error := msg.State.Error, Description := msg.State.Description }) ∧
          (err3 ≠ none →
            storedJobState c3 msg.State.Token =
              some { Token := msg.State.Token, State := .StateSucceeded,
                     Podname := msg.State.Podname,
                     Method := convertJobMethodToAPB (convertJobMethodToCRD msg.State.Method),
                     Error := msg.State.Error, Description := msg.State.Description })) := by
  obtain ⟨meta_, labels, hstored, -, -, -⟩ :=
    SetState_ok_stored d c c1 msg.InstanceUUID token msg.State hset
  obtain ⟨-, hsi, -⟩ := SetState_ok d c c1 msg.InstanceUUID token msg.State hset
  obtain ⟨hdj, hdok, hderr⟩ := DeleteServiceInstance_effect d c1 msg.InstanceUUID
  have hstored2 : storedJobState (d.DeleteServiceInstance c1 msg.InstanceUUID).1 msg.State.Token =
      some { Token := msg.State.Token, State := .StateSucceeded,
             Podname := msg.State.Podname,
             Method := convertJobMethodToAPB (convertJobMethodToCRD msg.State.Method),
             Error := msg.State.Error, Description := msg.State.Description } := by
    simp [storedJobState, hdj, hstored, convertJobStateToAPB, hstate, convertStateToCRD,
      convertStateToAPB]
  rcases hdel : d.DeleteServiceInstance c1 msg.InstanceUUID with ⟨c2, derr⟩
  rw [hdel] at hdj hdok hderr hstored2
  simp only at hdj hdok hderr hstored2
  cases derr with
  | none =>
    refine ⟨c2, ?_, fun _ => ⟨hdok rfl, hstored2⟩, fun e he => by simp at he⟩
    simp [DeprovisionWorkSubscriber.handle, crdDAO, hset, hstate, cleanupDeprovision, hdel]
  | some e =>
    have hlab : ∀ js, storeGet c2.jobStates
        ({ msg.State with State := .StateFailed } : apb.JobState).Token = some js →
        js.ObjectMeta.Labels ≠ none := by
      intro js hjs
      rw [hdj] at hjs
      simp only at hjs
      rw [hstored] at hjs
      cases hjs
      simp
    obtain ⟨c3, token3, err3, hset2⟩ := SetState_isSome d c2 msg.InstanceUUID
      { msg.State with State := .StateFailed } hlab
    refine ⟨c3, ?_, fun h => by simp at h, fun e2 _ => ⟨?_, token3, err3, hset2, ?_, ?_⟩⟩
    · simp [DeprovisionWorkSubscriber.handle, crdDAO, hset, hstate, cleanupDeprovision, hdel,
        setFailedDeprovisionJob, hset2]
    · cases err3 with
      | none =>
        obtain ⟨-, h3, -⟩ := SetState_ok d c2 c3 msg.InstanceUUID token3 _ hset2
        rw [h3, hderr e rfl, hsi]
      | some e3 =>
        obtain ⟨-, h3⟩ := SetState_err_unchanged d c2 c3 msg.InstanceUUID token3 _ e3 hset2
        rw [h3, hderr e rfl, hsi]
    · intro h3
      subst h3
      obtain ⟨meta3, labels3, hstored3, -, -, -⟩ :=
        SetState_ok_stored d c2 c3 msg.InstanceUUID token3 _ hset2
      simp only at hstored3
      simp [storedJobState, hstored3, convertJobStateToAPB, convertStateToCRD, convertStateToAPB]
    · intro h3
      cases err3 with
      | none => exact absurd rfl h3
      | some e3 =>
        obtain ⟨h4, -⟩ := SetState_err_unchanged d c2 c3 msg.InstanceUUID token3 _ e3 hset2
        simpa [storedJobState, h4] using hstored2

/-- Witness of C1 (as amended): on the example cluster the delete fails and
the follow-up `SetState` succeeds. -/
theorem handle_succeeded_outcome_witness :
    ∃ c3, DeprovisionWorkSubscriber.handle (crdDAO exampleDao) exampleCluster
        (exampleMsg .StateSucceeded) = some c3 ∧
      c3.serviceInstances = exampleCluster.serviceInstances ∧
      storedJobState c3 "t1" =
        some { Token := "t1", State := .StateFailed, Podname := "pod",
               Method := .JobMethodDeprovision, Error := "", Description := "deprovision" } := by
  obtain ⟨c3, h, -, hfail⟩ := handle_succeeded_outcome exampleDao exampleCluster _
    (exampleMsg .StateSucceeded) "t1" rfl rfl
  obtain ⟨hsi, token3, err3, hset2, hnone, -⟩ := hfail (.Other "delete failed") rfl
  refine ⟨c3, h, hsi, ?_⟩
  have : err3 = none := by
    have h2 : some (c3, token3, err3) = some (_, "t1", none) := hset2.symm.trans rfl
    simp only [Option.some.injEq, Prod.mk.injEq] at h2
    exact h2.2.2
  exact hnone this

/-- Counterexample to C1 as stated: on the example cluster the initial
`SetState` of a `Succeeded` deprovision notification with an empty error text
succeeds and the delete of the instance fails; afterwards the instance record
still exists and the stored job state is `Failed` with an empty error text,
so neither alternative of the claimed postcondition holds. -/
theorem deprovision_postcondition_counterexample :
    ∃ c1 c3,
      exampleDao.SetState exampleCluster "i1" (exampleMsg .StateSucceeded).State =
        some (c1, "t1", none) ∧
      DeprovisionWorkSubscriber.handle (crdDAO exampleDao) exampleCluster
        (exampleMsg .StateSucceeded) = some c3 ∧
      hasServiceInstance c3 "i1" = true ∧
      storedJobState c3 "t1" =
        some { Token := "t1", State := .StateFailed, Podname := "pod",
               Method := .JobMethodDeprovision, Error := "", Description := "deprovision" } ∧
      ¬ deprovisionPostcondition c3 "i1" "t1" := by
  refine ⟨_, _, rfl, rfl, rfl, rfl, ?_⟩
  intro h
  rcases h with ⟨h1, -⟩ | ⟨-, js, hjs, -, herr⟩
  · exact absurd h1 (by decide)
  · have h2 : some js = some _ := hjs.symm.trans rfl
    simp only [Option.some.injEq] at h2
    subst h2
    exact herr rfl

/-! ## Theorems: the job-state store -/

theorem convertState_roundtrip (s : apb.State) (h : declaredState s = true) :
    convertStateToAPB (convertStateToCRD s) = s := by
  cases s <;> simp_all [declaredState, convertStateToCRD, convertStateToAPB]

theorem convertJobMethod_roundtrip (m : apb.JobMethod) (h : declaredMethod m = true) :
    convertJobMethodToAPB (convertJobMethodToCRD m) = m := by
  cases m <;> simp_all [declaredMethod, convertJobMethodToCRD, convertJobMethodToAPB]

theorem JobStates_Get_snd_of_stored (c : Cluster) (name : String) (o : v1.JobState)
    (hf : c.nextFault = none) (hg : storeGet c.jobStates name = some o) :
    (JobStates.Get c name).2 = .ok o := by
  rw [JobStates_Get_eq]
  simp [hf, hg]

/-- On a cluster with an exhausted failure script whose record for the token,
if any, has a label map, `SetState` succeeds. -/
theorem SetState_no_faults (d : Dao) (c : Cluster) (instanceID : String) (state : apb.JobState)
    (hf : c.faults = [])
    (hl : ∀ js, storeGet c.jobStates state.Token = some js → js.ObjectMeta.Labels ≠ none) :
    ∃ c1, d.SetState c instanceID state = some (c1, state.Token, none) ∧ c1.faults = [] := by
  have hnf : c.nextFault = none := by simp [Cluster.nextFault, hf]
  have hnf2 : ∀ a, (c.logged a).nextFault = none := by
    intro a
    simp [Cluster.nextFault, Cluster.logged, hf]
  unfold Dao.SetState
  simp only [convertJobStateToCRD, JobStates_Get_eq, hnf]
  cases hg : storeGet c.jobStates state.Token with
  | none => simp [JobStates_Create_eq, hnf2, hg, hf]
  | some js =>
    simp only
    cases hlab : js.ObjectMeta.Labels with
    | none => exact absurd hlab (hl js hg)
    | some labels =>
      have hn := storeGet_name _ _ _ hg
      simp [JobStates_Update_eq, hnf2, hn, hg, hf]

/-- C6: for a job state `js` whose method is one of the five methods and whose
state is one of the four states, converting to the persisted schema and back
under the token gives `js` again; so after a successful
`SetState(instanceID, js)`, a `GetState` or `GetStateByKey` of `js.Token` that
the cluster API does not fail returns `js`; and on a cluster whose API calls
all succeed and whose records carry label maps, that `SetState` succeeds. -/
theorem SetState_then_GetState (js : apb.JobState)
    (hm : declaredMethod js.Method = true) (hs : declaredState js.State = true) :
    ((convertJobStateToCRD js).bind fun spec => convertJobStateToAPB spec js.Token) = .ok js ∧
    (∀ (d : Dao) (c c1 : Cluster) (instanceID id token : String),
      d.SetState c instanceID js = some (c1, token, none) → c1.nextFault = none →
        token = js.Token ∧ (d.GetState c1 id js.Token).2 = .ok js ∧
          (d.GetStateByKey c1 js.Token).2 = .ok js) ∧
    (∀ (d : Dao) (c : Cluster) (instanceID : String), c.faults = [] →
      (∀ o, storeGet c.jobStates js.Token = some o → o.ObjectMeta.Labels ≠ none) →
        ∃ c1, d.SetState c instanceID js = some (c1, js.Token, none) ∧ c1.nextFault = none) := by
  have hrt : ∀ name, name = js.Token →
      convertJobStateToAPB
        { State := convertStateToCRD js.State, Method := convertJobMethodToCRD js.Method,
          PodName := js.Podname, Error := js.Error, Description := js.Description } name =
        .ok js := by
    intro name hname
    simp [convertJobStateToAPB, convertState_roundtrip _ hs, convertJobMethod_roundtrip _ hm,
      hname]
  refine ⟨?_, ?_, ?_⟩
  · simpa [convertJobStateToCRD, Except.bind] using hrt js.Token rfl
  · intro d c c1 instanceID id token hset hfault
    obtain ⟨htok, -, -⟩ := SetState_ok d c c1 instanceID token js hset
    obtain ⟨meta_, labels, hstored, -, -, -⟩ := SetState_ok_stored d c c1 instanceID token js hset
    have hget : ∀ id, (d.GetState c1 id js.Token).2 = .ok js := by
      intro id
      unfold Dao.GetState
      have h1 := JobStates_Get_snd_of_stored c1 js.Token _ hfault hstored
      rcases hG : JobStates.Get c1 js.Token with ⟨c2, r⟩
      rw [hG] at h1
      simp only at h1
      subst h1
      simp only [hrt js.Token rfl]
    exact ⟨htok, hget id, hget ""⟩
  · intro d c instanceID hf hl
    obtain ⟨c1, h1, h2⟩ := SetState_no_faults d c instanceID js hf hl
    exact ⟨c1, h1, by simp [Cluster.nextFault, h2]⟩

/-- Witness of C6: an `InProgress` job state written to the empty cluster and
read back. -/
theorem SetState_then_GetState_witness :
    ∃ c1, exampleDao.SetState (Cluster.empty []) "i1" (exampleMsg .StateInProgress).State =
        some (c1, "t1", none) ∧
      (exampleDao.GetStateByKey c1 "t1").2 = .ok (exampleMsg .StateInProgress).State := by
  obtain ⟨-, hget, hex⟩ := SetState_then_GetState (exampleMsg .StateInProgress).State rfl rfl
  obtain ⟨c1, h1, h2⟩ := hex exampleDao (Cluster.empty []) "i1" rfl (by intro o h; cases h)
  exact ⟨c1, h1, (hget exampleDao _ c1 "i1" "" _ h1 h2).2.2⟩

/-- C7: when two consecutive `SetState` calls with the same instance ID and
job state both succeed, both return the token and the second leaves every
stored job-state object, spec and labels alike, exactly as the first left it;
and on a cluster with an exhausted failure script the second call does
succeed. -/
theorem SetState_idempotent (d : Dao) (c c1 : Cluster) (instanceID token1 : String)
    (js : apb.JobState) (h1 : d.SetState c instanceID js = some (c1, token1, none)) :
    token1 = js.Token ∧
    (∀ c2 token2, d.SetState c1 instanceID js = some (c2, token2, none) →
      token2 = js.Token ∧ c2.jobStates = c1.jobStates) ∧
    (c1.faults = [] → ∃ c2, d.SetState c1 instanceID js = some (c2, js.Token, none)) := by
  obtain ⟨htok, -, -⟩ := SetState_ok d c c1 instanceID token1 js h1
  obtain ⟨meta_, labels, hstored, -, hidem, -⟩ := SetState_ok_stored d c c1 instanceID token1 js h1
  refine ⟨htok, ?_, ?_⟩
  · intro c2 token2 h2
    obtain ⟨htok2, -, hcase⟩ := SetState_ok d c1 c2 instanceID token2 js h2
    refine ⟨htok2, ?_⟩
    rcases hcase with ⟨o, labels2, hg, hl, hj⟩ | ⟨hg, -⟩
    · rw [hstored] at hg
      cases hg
      simp only [Option.some.injEq] at hl
      subst hl
      rw [hj]
      apply storeReplace_self
      simpa [updatedJobState, hidem] using hstored
    · rw [hstored] at hg
      cases hg
  · intro hf
    obtain ⟨c2, h2, -⟩ := SetState_no_faults d c1 instanceID js hf (by
      intro o ho
      rw [hstored] at ho
      cases ho
      simp)
    exact ⟨c2, h2⟩

/-- Witness of C7: the same `InProgress` job state written twice to the empty
cluster. -/
theorem SetState_idempotent_witness :
    ∃ c1 c2, exampleDao.SetState (Cluster.empty []) "i1" (exampleMsg .StateInProgress).State =
        some (c1, "t1", none) ∧
      exampleDao.SetState c1 "i1" (exampleMsg .StateInProgress).State = some (c2, "t1", none) ∧
      c2.jobStates = c1.jobStates := by
  have h := SetState_idempotent exampleDao (Cluster.empty []) _ "i1" "t1"
    (exampleMsg .StateInProgress).State rfl
  obtain ⟨c2, h2⟩ := h.2.2 rfl
  exact ⟨_, c2, rfl, h2, (h.2.1 c2 _ h2).2⟩

/-! ### The recovery index -/

theorem latest_token (hist : List (String × apb.JobState)) (token : String) (js : apb.JobState)
    (h : latest hist token = some js) : js.Token = token ∧ ∃ id, (id, js) ∈ hist := by
  induction hist with
  | nil => simp [latest] at h
  | cons x rest ih =>
    obtain ⟨id, js1⟩ := x
    unfold latest at h
    cases hl : latest rest token with
    | some later =>
      simp [hl] at h
      subst h
      obtain ⟨h1, id2, h2⟩ := ih hl
      exact ⟨h1, id2, List.mem_cons_of_mem _ h2⟩
    | none =>
      simp [hl] at h
      obtain ⟨h1, h2⟩ := h
      subst h2
      exact ⟨h1, id, List.mem_cons_self _ _⟩

theorem latest_append (hist : List (String × apb.JobState)) (id : String) (js : apb.JobState)
    (token : String) :
    latest (hist ++ [(id, js)]) token = if js.Token = token then some js else latest hist token := by
  induction hist with
  | nil => simp [latest]
  | cons x rest ih =>
    obtain ⟨id1, js1⟩ := x
    rw [List.cons_append]
    unfold latest
    rw [ih]
    by_cases h : js.Token = token
    · simp [h]
    · simp [h]

theorem storeGet_eq_none_iff {α : Type} (objs : List (v1.Object α)) (name : String) :
    storeGet objs name = none ↔ name ∉ objs.map fun o => o.ObjectMeta.Name := by
  induction objs with
  | nil => simp [storeGet]
  | cons y rest ih =>
    by_cases hy : y.ObjectMeta.Name = name
    · simp [storeGet, hy]
    · have : ¬ name = y.ObjectMeta.Name := fun e => hy e.symm
      simp [storeGet, hy, ih, this]

theorem storeGet_mem {α : Type} (objs : List (v1.Object α)) (name : String) (o : v1.Object α)
    (h : storeGet objs name = some o) : o ∈ objs := by
  induction objs with
  | nil => simp [storeGet] at h
  | cons y rest ih =>
    by_cases hy : y.ObjectMeta.Name = name
    · simp [storeGet, hy] at h
      simp [h]
    · simp [storeGet, hy] at h
      exact List.mem_cons_of_mem _ (ih h)

theorem storeGet_of_mem {α : Type} (objs : List (v1.Object α)) (o : v1.Object α)
    (hnd : (objs.map fun o => o.ObjectMeta.Name).Nodup) (h : o ∈ objs) :
    storeGet objs o.ObjectMeta.Name = some o := by
  induction objs with
  | nil => simp at h
  | cons y rest ih =>
    simp only [List.map_cons, List.nodup_cons] at hnd
    rcases List.mem_cons.mp h with rfl | hmem
    · simp [storeGet]
    · have hy : ¬ y.ObjectMeta.Name = o.ObjectMeta.Name := by
        intro e
        exact hnd.1 (e ▸ List.mem_map_of_mem (fun o => o.ObjectMeta.Name) hmem)
      simp [storeGet, hy, ih hnd.2 hmem]

theorem storeReplace_names {α : Type} (objs : List (v1.Object α)) (o : v1.Object α) :
    (storeReplace objs o).map (fun o => o.ObjectMeta.Name) =
      objs.map fun o => o.ObjectMeta.Name := by
  induction objs with
  | nil => rfl
  | cons y rest ih =>
    by_cases hy : y.ObjectMeta.Name = o.ObjectMeta.Name
    · simp [storeReplace, hy]
    · simp [storeReplace, hy, ih]

theorem jobStoreInv_nil : jobStoreInv [] [] := by
  refine ⟨by simp, ?_, ?_⟩
  · intro name o h
    simp [storeGet] at h
  · intro token js h
    simp [latest] at h

/-- A successful `SetState` extends the relation by its call. -/
theorem jobStoreInv_SetState (d : Dao) (c c1 : Cluster) (instanceID token : String)
    (js : apb.JobState) (hist : List (String × apb.JobState))
    (hinv : jobStoreInv hist c.jobStates)
    (h : d.SetState c instanceID js = some (c1, token, none)) :
    jobStoreInv (hist ++ [(instanceID, js)]) c1.jobStates := by
  obtain ⟨hnd, hobj, htok⟩ := hinv
  obtain ⟨-, -, hcase⟩ := SetState_ok d c c1 instanceID token js h
  obtain ⟨meta_, labels, hstored, hlab, -, -⟩ := SetState_ok_stored d c c1 instanceID token js h
  have hother : ∀ name, name ≠ js.Token → storeGet c1.jobStates name = storeGet c.jobStates name := by
    intro name hne
    rcases hcase with ⟨old, labels0, hg, hl, hj⟩ | ⟨hg, hj⟩
    · rw [hj]
      apply storeGet_replace_other
      simpa [updatedJobState, storeGet_name _ _ _ hg] using hne
    · rw [hj, storeGet_append]
      have : ¬ js.Token = name := fun e => hne e.symm
      cases storeGet c.jobStates name <;> simp [newJobState, this]
  refine ⟨?_, ?_, ?_⟩
  · rcases hcase with ⟨old, labels0, hg, hl, hj⟩ | ⟨hg, hj⟩
    · rw [hj, storeReplace_names]
      exact hnd
    · rw [hj, List.map_append, List.nodup_append]
      refine ⟨hnd, by simp, ?_⟩
      intro a ha hb
      simp only [List.map_cons, List.map_nil, List.mem_singleton, newJobState] at hb
      subst hb
      exact (storeGet_eq_none_iff _ _).mp hg ha
  · intro name o ho
    by_cases hname : name = js.Token
    · subst hname
      rw [hstored] at ho
      cases ho
      exact ⟨js, labels, by simp [latest_append], rfl, rfl, hlab⟩
    · rw [hother name hname] at ho
      obtain ⟨js0, labels0, h1, h2, h3, h4⟩ := hobj name o ho
      have : ¬ js.Token = name := fun e => hname e.symm
      exact ⟨js0, labels0, by simp [latest_append, this, h1], h2, h3, h4⟩
  · intro tk js0 hl
    by_cases hname : tk = js.Token
    · subst hname
      rw [hstored]
      simp
    · rw [hother tk hname]
      have : ¬ js.Token = tk := fun e => hname e.symm
      simp only [latest_append, this, if_false] at hl
      exact htok tk js0 hl

theorem jobStoreInv_SetStateAll (d : Dao) (calls : List (String × apb.JobState)) :
    ∀ (c c1 : Cluster) (hist : List (String × apb.JobState)),
      jobStoreInv hist c.jobStates → SetStateAll d c calls = some c1 →
        jobStoreInv (hist ++ calls) c1.jobStates := by
  induction calls with
  | nil =>
    intro c c1 hist hinv h
    simp only [SetStateAll, Option.some.injEq] at h
    subst h
    simpa using hinv
  | cons x rest ih =>
    intro c c1 hist hinv h
    obtain ⟨instanceID, js⟩ := x
    unfold SetStateAll at h
    rcases hset : d.SetState c instanceID js with _ | ⟨c2, token, err⟩
    · simp [hset] at h
    · cases err with
      | some e => simp [hset] at h
      | none =>
        simp only [hset] at h
        have := ih c2 c1 (hist ++ [(instanceID, js)])
          (jobStoreInv_SetState d c c2 instanceID token js hist hinv hset) h
        simpa using this

theorem findJobStateLoop_eq (parse : String → uuid.UUID) (items : List v1.JobState) :
    ∀ (rs : List apb.RecoverStatus) (errs : List Error),
      findJobStateLoop parse items rs errs =
        (rs ++ items.map (fun o =>
          { InstanceID := parse (labelIndex o.ObjectMeta.Labels jobStateInstanceLabel),
            State := { Token := o.ObjectMeta.Name,
                       State := convertStateToAPB o.Spec.State,
                       Method := convertJobMethodToAPB o.Spec.Method,
                       Podname := o.Spec.PodName,
                       Error := o.Spec.Error,
                       Description := o.Spec.Description } }), errs) := by
  induction items with
  | nil => intro rs errs; simp [findJobStateLoop]
  | cons o rest ih =>
    intro rs errs
    simp [findJobStateLoop, convertJobStateToAPB, ih]

theorem FindJobStateByState_eq (parse : String → uuid.UUID) (d : Dao) (c : Cluster)
    (state : apb.State) (hf : c.nextFault = none) :
    (d.FindJobStateByState parse c state).2 =
      ((c.jobStates.filter fun o =>
          selectorMatches [(jobStateLabel, (convertStateToCRD state).format)]
            o.ObjectMeta.Labels).map (fun o =>
          { InstanceID := parse (labelIndex o.ObjectMeta.Labels jobStateInstanceLabel),
            State := { Token := o.ObjectMeta.Name,
                       State := convertStateToAPB o.Spec.State,
                       Method := convertJobMethodToAPB o.Spec.Method,
                       Podname := o.Spec.PodName,
                       Error := o.Spec.Error,
                       Description := o.Spec.Description } }), none) := by
  unfold Dao.FindJobStateByState JobStates.List Cluster.call
  simp [hf, findJobStateLoop_eq]

theorem convertStateToCRD_format_inj (a b : apb.State)
    (h : (convertStateToCRD a).format = (convertStateToCRD b).format) :
    convertStateToCRD a = convertStateToCRD b := by
  cases a <;> cases b <;> simp [convertStateToCRD, v1.State.format] at h ⊢

theorem convertStateToCRD_inj (a b : apb.State) (ha : declaredState a = true)
    (hb : declaredState b = true) (h : convertStateToCRD a = convertStateToCRD b) : a = b := by
  cases a <;> cases b <;> simp_all [convertStateToCRD, declaredState]

/-- C8: after a sequence of successful `SetState` calls on an initially empty
store, all carrying declared states and methods, a `FindJobStateByState(s)`
that the cluster API does not fail returns no error, at most one entry per
token, and exactly the job states that are the most recent one written for
their token and have state `s`. -/
theorem FindJobStateByState_after_SetStates (parse : String → uuid.UUID) (d : Dao)
    (faults : List (Option Error)) (calls : List (String × apb.JobState)) (c : Cluster)
    (s : apb.State)
    (hcalls : ∀ call ∈ calls,
      declaredState call.2.State = true ∧ declaredMethod call.2.Method = true)
    (hs : declaredState s = true)
    (hrun : SetStateAll d (Cluster.empty faults) calls = some c)
    (hfault : c.nextFault = none) :
    (d.FindJobStateByState parse c s).2.2 = none ∧
    ((d.FindJobStateByState parse c s).2.1.map fun r => r.State.Token).Nodup ∧
    ∀ js, js ∈ (d.FindJobStateByState parse c s).2.1.map (fun r => r.State) ↔
      (latest calls js.Token = some js ∧ js.State = s) := by
  have hinv := jobStoreInv_SetStateAll d calls (Cluster.empty faults) c [] jobStoreInv_nil hrun
  simp only [List.nil_append] at hinv
  obtain ⟨hnd, hobj, htok⟩ := hinv
  rw [FindJobStateByState_eq parse d c s hfault]
  refine ⟨rfl, ?_, ?_⟩
  · simp only [List.map_map]
    have hsub := List.Nodup.sublist
      ((List.filter_sublist (p := fun o : v1.JobState =>
          selectorMatches [(jobStateLabel, (convertStateToCRD s).format)] o.ObjectMeta.Labels)
        c.jobStates).map fun o : v1.JobState => o.ObjectMeta.Name) hnd
    simpa [Function.comp] using hsub
  · intro js
    simp only [List.map_map, List.mem_map, List.mem_filter, Function.comp]
    constructor
    · rintro ⟨o, ⟨hmem, hsel⟩, rfl⟩
      obtain ⟨js0, labels, hl, hspec, hlabels, hstate⟩ :=
        hobj o.ObjectMeta.Name o (storeGet_of_mem _ _ hnd hmem)
      obtain ⟨htoken, id0, hcall⟩ := latest_token _ _ _ hl
      obtain ⟨hds, hdm⟩ := hcalls _ hcall
      have hjs : ({ Token := o.ObjectMeta.Name,
                    State := convertStateToAPB o.Spec.State,
                    Method := convertJobMethodToAPB o.Spec.Method,
                    Podname := o.Spec.PodName,
                    Error := o.Spec.Error,
                    Description := o.Spec.Description } : apb.JobState) = js0 := by
        rw [hspec]
        simp [convertState_roundtrip _ hds, convertJobMethod_roundtrip _ hdm, ← htoken]
      rw [hjs]
      refine ⟨by rw [htoken]; exact hl, ?_⟩
      simp only [selectorMatches, hlabels, List.all_cons, List.all_nil, Bool.and_true,
        decide_eq_true_eq, hstate, Option.some.injEq] at hsel
      exact convertStateToCRD_inj _ _ hds hs (convertStateToCRD_format_inj _ _ hsel)
    · rintro ⟨hl, hstate⟩
      have hne := htok _ _ hl
      rcases hg : storeGet c.jobStates js.Token with _ | o
      · exact absurd hg hne
      obtain ⟨js0, labels, hl0, hspec, hlabels, hst0⟩ := hobj _ o hg
      rw [hl] at hl0
      cases hl0
      obtain ⟨-, id0, hcall⟩ := latest_token _ _ _ hl
      obtain ⟨hds, hdm⟩ := hcalls _ hcall
      refine ⟨o, ⟨storeGet_mem _ _ _ hg, ?_⟩, ?_⟩
      · simp [selectorMatches, hlabels, hst0, hstate]
      · rw [hspec]
        simp [convertState_roundtrip _ hds, convertJobMethod_roundtrip _ hdm,
          storeGet_name _ _ _ hg]

/-- Witness of C8: scenario D on the empty cluster; `FindJobStateByState` of
`InProgress` returns the job states `t1` and `t3`. -/
theorem FindJobStateByState_after_SetStates_witness :
    ∃ c, SetStateAll exampleDao (Cluster.empty []) scenarioD = some c ∧
      (exampleDao.FindJobStateByState exampleParse c .StateInProgress).2.1.map
          (fun r => r.State) =
        [exampleState "t1" .StateInProgress, exampleState "t3" .StateInProgress] ∧
      ∀ js, js ∈ (exampleDao.FindJobStateByState exampleParse c .StateInProgress).2.1.map
          (fun r => r.State) ↔
        (latest scenarioD js.Token = some js ∧ js.State = .StateInProgress) :=
  ⟨_, rfl, rfl,
    (FindJobStateByState_after_SetStates exampleParse exampleDao [] scenarioD _ .StateInProgress
      (by decide) rfl rfl rfl).2.2⟩

theorem svcInstJobsLoop_eq (items : List v1.JobState) :
    ∀ (jss : List apb.JobState) (errs : List Error),
      svcInstJobsLoop items jss errs =
        (jss ++ items.map (fun o =>
          { Token := o.ObjectMeta.Name,
            State := convertStateToAPB o.Spec.State,
            Method := convertJobMethodToAPB o.Spec.Method,
            Podname := o.Spec.PodName,
            Error := o.Spec.Error,
            Description := o.Spec.Description }), errs) := by
  induction items with
  | nil => intro jss errs; simp [svcInstJobsLoop]
  | cons o rest ih =>
    intro jss errs
    simp [svcInstJobsLoop, convertJobStateToAPB, ih]

theorem GetSvcInstJobsByState_eq (d : Dao) (c : Cluster) (ID : String) (state : apb.State)
    (hf : c.nextFault = none) :
    (d.GetSvcInstJobsByState c ID state).2 =
      ((c.jobStates.filter fun o =>
          selectorMatches [(jobStateInstanceLabel, ID),
            (jobStateLabel, (convertStateToCRD state).format)] o.ObjectMeta.Labels).map (fun o =>
          { Token := o.ObjectMeta.Name,
            State := convertStateToAPB o.Spec.State,
            Method := convertJobMethodToAPB o.Spec.Method,
            Podname := o.Spec.PodName,
            Error := o.Spec.Error,
            Description := o.Spec.Description }), none) := by
  unfold Dao.GetSvcInstJobsByState JobStates.List Cluster.call
  simp [hf, svcInstJobsLoop_eq]

/-- C9 (as amended): after every successful `SetState(instanceID, state)` the
record of the token has the written spec, a `state` label equal to the
written state, and an `instanceId` label that is `instanceID` when the call
created the record and the label the record already had when the call updated
it.  Whenever that label is `instanceID`, a `GetSvcInstJobsByState(instanceID,
state.State)` that the cluster API does not fail returns the record, and
`FindJobStateByState(state.State)` returns it with owner
`uuid.Parse(instanceID)`. -/
theorem SetState_index_labels (d : Dao) (c c1 : Cluster) (instanceID token : String)
    (js : apb.JobState) (h : d.SetState c instanceID js = some (c1, token, none)) :
    ∃ o labels, storeGet c1.jobStates js.Token = some o ∧
      o.Spec = { State := convertStateToCRD js.State,
                 Method := convertJobMethodToCRD js.Method,
                 PodName := js.Podname, Error := js.Error, Description := js.Description } ∧
      o.ObjectMeta.Labels = some labels ∧
      labelGet labels jobStateLabel = some (convertStateToCRD js.State).format ∧
      (labelGet labels jobStateInstanceLabel =
        match storeGet c.jobStates js.Token with
        | none => some instanceID
        | some old => labelGet (old.ObjectMeta.Labels.getD []) jobStateInstanceLabel) ∧
      (labelGet labels jobStateInstanceLabel = some instanceID → c1.nextFault = none →
        (d.GetSvcInstJobsByState c1 instanceID js.State).2.2 = none ∧
        ({ Token := js.Token,
           State := convertStateToAPB (convertStateToCRD js.State),
           Method := convertJobMethodToAPB (convertJobMethodToCRD js.Method),
           Podname := js.Podname, Error := js.Error, Description := js.Description } :
            apb.JobState) ∈ (d.GetSvcInstJobsByState c1 instanceID js.State).2.1 ∧
        ∀ parse : String → uuid.UUID,
          ({ InstanceID := parse instanceID,
             State := { Token := js.Token,
                        State := convertStateToAPB (convertStateToCRD js.State),
                        Method := convertJobMethodToAPB (convertJobMethodToCRD js.Method),
                        Podname := js.Podname, Error := js.Error,
                        Description := js.Description } } : apb.RecoverStatus) ∈
            (d.FindJobStateByState parse c1 js.State).2.1) := by
  obtain ⟨meta_, labels, hstored, hlab, -, hinst⟩ :=
    SetState_ok_stored d c c1 instanceID token js h
  refine ⟨_, labels, hstored, rfl, rfl, hlab, hinst, ?_⟩
  intro hown hfault
  have hmem := storeGet_mem _ _ _ hstored
  rw [GetSvcInstJobsByState_eq d c1 instanceID js.State hfault]
  refine ⟨rfl, ?_, ?_⟩
  · simp only [List.mem_map, List.mem_filter]
    exact ⟨_, ⟨hmem, by simp [selectorMatches, hown, hlab]⟩, rfl⟩
  · intro parse
    rw [FindJobStateByState_eq parse d c1 js.State hfault]
    simp only [List.mem_map, List.mem_filter]
    exact ⟨_, ⟨hmem, by simp [selectorMatches, hlab]⟩, by simp [labelIndex, hown]⟩

/-- Witness of C9 (as amended): a record created for instance `i1`. -/
theorem SetState_index_labels_witness :
    ∃ c1, exampleDao.SetState (Cluster.empty []) "i1" (exampleState "t1" .StateInProgress) =
        some (c1, "t1", none) ∧
      exampleState "t1" .StateInProgress ∈
        (exampleDao.GetSvcInstJobsByState c1 "i1" .StateInProgress).2.1 := by
  obtain ⟨o, labels, -, -, -, -, hinst, hq⟩ := SetState_index_labels exampleDao
    (Cluster.empty []) _ "i1" "t1" (exampleState "t1" .StateInProgress) rfl
  exact ⟨_, rfl, (hq hinst rfl).2.1⟩

/-- Counterexample to C9 as stated: job `t1` is created for instance `i1` and
then updated by a successful `SetState("i2", …)`.  The record keeps the
`instanceId` label `i1`, so `GetSvcInstJobsByState("i2", …)` does not return
it and `FindJobStateByState` reports the owner parsed from `i1`. -/
theorem SetState_index_labels_counterexample :
    ∃ c1 c2 o,
      exampleDao.SetState (Cluster.empty []) "i1" (exampleState "t1" .StateInProgress) =
        some (c1, "t1", none) ∧
      exampleDao.SetState c1 "i2" (exampleState "t1" .StateInProgress) =
        some (c2, "t1", none) ∧
      storeGet c2.jobStates "t1" = some o ∧
      labelIndex o.ObjectMeta.Labels jobStateInstanceLabel = "i1" ∧
      labelIndex o.ObjectMeta.Labels jobStateInstanceLabel ≠ "i2" ∧
      (exampleDao.GetSvcInstJobsByState c2 "i2" .StateInProgress).2 = ([], none) ∧
      (exampleDao.FindJobStateByState (fun s => some (s.toList.map Char.toNat)) c2
          .StateInProgress).2.1.map (fun r => r.InstanceID) =
        [some ("i1".toList.map Char.toNat)] :=
  ⟨_, _, _, rfl, rfl, rfl, rfl, by decide, rfl, rfl⟩

/-! ### Create versus update -/

theorem ServiceInstances_Get_eq (c : Cluster) (name : String) :
    ServiceInstances.Get c name =
      (c.logged (.Get .ServiceInstances name),
        match c.nextFault with
        | some e => .error e
        | none =>
          match storeGet c.serviceInstances name with
          | some o => .ok o
          | none => .error .NotFound) := by
  unfold ServiceInstances.Get Cluster.call
  cases c.nextFault with
  | some e => rfl
  | none =>
    simp only [Cluster_logged_serviceInstances]
    cases storeGet c.serviceInstances name <;> rfl

theorem JobStates_Create_actions (c : Cluster) (obj : v1.JobState) :
    (JobStates.Create c obj).1.actions = c.actions ++ [.Create .JobStates obj.ObjectMeta.Name] := by
  rw [JobStates_Create_eq]
  cases c.nextFault with
  | some e => rfl
  | none => cases storeGet c.jobStates obj.ObjectMeta.Name <;> rfl

theorem JobStates_Update_actions (c : Cluster) (obj : v1.JobState) :
    (JobStates.Update c obj).1.actions = c.actions ++ [.Update .JobStates obj.ObjectMeta.Name] := by
  rw [JobStates_Update_eq]
  cases c.nextFault with
  | some e => rfl
  | none => cases storeGet c.jobStates obj.ObjectMeta.Name <;> rfl

theorem ServiceInstances_Create_actions (c : Cluster) (obj : v1.ServiceInstance) :
    (ServiceInstances.Create c obj).1.actions =
      c.actions ++ [.Create .ServiceInstances obj.ObjectMeta.Name] := by
  unfold ServiceInstances.Create Cluster.call
  cases c.nextFault with
  | some e => rfl
  | none =>
    simp only [Cluster_logged_serviceInstances]
    cases storeGet c.serviceInstances obj.ObjectMeta.Name <;> rfl

theorem ServiceInstances_Update_actions (c : Cluster) (obj : v1.ServiceInstance) :
    (ServiceInstances.Update c obj).1.actions =
      c.actions ++ [.Update .ServiceInstances obj.ObjectMeta.Name] := by
  unfold ServiceInstances.Update Cluster.call
  cases c.nextFault with
  | some e => rfl
  | none =>
    simp only [Cluster_logged_serviceInstances]
    cases storeGet c.serviceInstances obj.ObjectMeta.Name <;> rfl

/-- C10 (as amended): `SetState` and `SetServiceInstance` choose between
create and update by whether the existence lookup returned any error: when the
lookup fails, with `NotFound` or with any other error, the only further API
call is a create and the caller receives the error of that create (nil when
it succeeds), not the lookup error; when the lookup succeeds, the only further
API call is an update. -/
theorem Set_creates_on_any_lookup_error (json : JSON) (d : Dao) (c : Cluster) :
    (∀ instanceID js e, (JobStates.Get c js.Token).2 = .error e →
      ∃ c1 token, d.SetState c instanceID js =
          some (c1, token, errorOf (JobStates.Create (JobStates.Get c js.Token).1
            (newJobState d instanceID js)).2) ∧
        c1.actions = c.actions ++ [.Get .JobStates js.Token, .Create .JobStates js.Token]) ∧
    (∀ instanceID js o c1 token err, (JobStates.Get c js.Token).2 = .ok o →
      d.SetState c instanceID js = some (c1, token, err) →
        c1.actions = c.actions ++ [.Get .JobStates js.Token, .Update .JobStates js.Token]) ∧
    (∀ id si spec e, convertServiceInstanceToCRD json si = some (.ok spec) →
      (ServiceInstances.Get c id).2 = .error e →
      ∃ c1, d.SetServiceInstance json c id si =
          some (c1, errorOf (ServiceInstances.Create (ServiceInstances.Get c id).1
            { ObjectMeta := { Name := id, Namespace := d.namespace_, Labels := none },
              Spec := spec }).2) ∧
        c1.actions = c.actions ++ [.Get .ServiceInstances id, .Create .ServiceInstances id]) ∧
    (∀ id si spec o, convertServiceInstanceToCRD json si = some (.ok spec) →
      (ServiceInstances.Get c id).2 = .ok o →
      ∃ c1 err, d.SetServiceInstance json c id si = some (c1, err) ∧
        c1.actions = c.actions ++ [.Get .ServiceInstances id, .Update .ServiceInstances id]) := by
  refine ⟨?_, ?_, ?_, ?_⟩
  · intro instanceID js e hget
    unfold Dao.SetState
    simp only [convertJobStateToCRD]
    rcases hG : JobStates.Get c js.Token with ⟨ca, r⟩
    rw [hG] at hget
    simp only at hget
    subst hget
    have hca : ca.actions = c.actions ++ [.Get .JobStates js.Token] := by
      have := congrArg Prod.fst hG
      rw [JobStates_Get_eq] at this
      simp only at this
      rw [← this]
      rfl
    have hact := JobStates_Create_actions ca (newJobState d instanceID js)
    simp only [newJobState] at hact ⊢
    rcases hC : JobStates.Create ca _ with ⟨cb, rc⟩
    rw [hC] at hact
    simp only at hact
    cases rc with
    | error e2 => exact ⟨cb, "", rfl, by simp [hact, hca]⟩
    | ok o2 => exact ⟨cb, js.Token, rfl, by simp [hact, hca]⟩
  · intro instanceID js o c1 token err hget hset
    unfold Dao.SetState at hset
    simp only [convertJobStateToCRD] at hset
    rcases hG : JobStates.Get c js.Token with ⟨ca, r⟩
    rw [hG] at hget hset
    simp only at hget
    subst hget
    have hca : ca.actions = c.actions ++ [.Get .JobStates js.Token] := by
      have := congrArg Prod.fst hG
      rw [JobStates_Get_eq] at this
      simp only at this
      rw [← this]
      rfl
    have hname : o.ObjectMeta.Name = js.Token := by
      have := congrArg Prod.snd hG
      rw [JobStates_Get_eq] at this
      simp only at this
      cases hf : c.nextFault with
      | some e => simp [hf] at this
      | none =>
        cases hg : storeGet c.jobStates js.Token with
        | none => simp [hf, hg] at this
        | some x =>
          simp [hf, hg] at this
          subst this
          exact storeGet_name _ _ _ hg
    simp only at hset
    cases hl : o.ObjectMeta.Labels with
    | none => simp [hl] at hset
    | some labels =>
      simp only [hl] at hset
      rcases hU : JobStates.Update ca
          { ObjectMeta := { o.ObjectMeta with
              Labels := some (labelSet labels jobStateLabel (convertStateToCRD js.State).format) },
            Spec := { State := convertStateToCRD js.State,
                      Method := convertJobMethodToCRD js.Method,
                      PodName := js.Podname, Error := js.Error,
                      Description := js.Description } } with ⟨cb, ru⟩
      have hact := JobStates_Update_actions ca
          { ObjectMeta := { o.ObjectMeta with
              Labels := some (labelSet labels jobStateLabel (convertStateToCRD js.State).format) },
            Spec := { State := convertStateToCRD js.State,
                      Method := convertJobMethodToCRD js.Method,
                      PodName := js.Podname, Error := js.Error,
                      Description := js.Description } }
      rw [hU] at hact hset
      simp only at hact
      cases ru with
      | error e2 =>
        simp only [Option.some.injEq, Prod.mk.injEq] at hset
        rw [← hset.1, hact, hca, hname]
        simp
      | ok o2 =>
        simp only [Option.some.injEq, Prod.mk.injEq] at hset
        rw [← hset.1, hact, hca, hname]
        simp
  · intro id si spec e hconv hget
    unfold Dao.SetServiceInstance
    simp only [hconv]
    rcases hG : ServiceInstances.Get c id with ⟨ca, r⟩
    rw [hG] at hget
    simp only at hget
    subst hget
    have hca : ca.actions = c.actions ++ [.Get .ServiceInstances id] := by
      have := congrArg Prod.fst hG
      rw [ServiceInstances_Get_eq] at this
      simp only at this
      rw [← this]
      rfl
    have hact := ServiceInstances_Create_actions ca
      { ObjectMeta := { Name := id, Namespace := d.namespace_, Labels := none }, Spec := spec }
    simp only
    rcases hC : ServiceInstances.Create ca
      { ObjectMeta := { Name := id, Namespace := d.namespace_, Labels := none },
        Spec := spec } with ⟨cb, rc⟩
    rw [hC] at hact
    simp only at hact
    cases rc with
    | error e2 => exact ⟨cb, rfl, by simp [hact, hca]⟩
    | ok o2 => exact ⟨cb, rfl, by simp [hact, hca]⟩
  · intro id si spec o hconv hget
    unfold Dao.SetServiceInstance
    simp only [hconv]
    rcases hG : ServiceInstances.Get c id with ⟨ca, r⟩
    rw [hG] at hget
    simp only at hget
    subst hget
    have hca : ca.actions = c.actions ++ [.Get .ServiceInstances id] := by
      have := congrArg Prod.fst hG
      rw [ServiceInstances_Get_eq] at this
      simp only at this
      rw [← this]
      rfl
    have hname : o.ObjectMeta.Name = id := by
      have := congrArg Prod.snd hG
      rw [ServiceInstances_Get_eq] at this
      simp only at this
      cases hf : c.nextFault with
      | some e => simp [hf] at this
      | none =>
        cases hg : storeGet c.serviceInstances id with
        | none => simp [hf, hg] at this
        | some x =>
          simp [hf, hg] at this
          subst this
          exact storeGet_name _ _ _ hg
    have hact := ServiceInstances_Update_actions ca { o with Spec := spec }
    simp only
    rcases hU : ServiceInstances.Update ca { o with Spec := spec } with ⟨cb, ru⟩
    rw [hU] at hact
    simp only at hact
    cases ru with
    | error e2 => exact ⟨cb, _, rfl, by simp [hact, hca, hname]⟩
    | ok o2 => exact ⟨cb, _, rfl, by simp [hact, hca, hname]⟩

/-- Witness of C10 (as amended): on the empty cluster whose first API call
fails with an error that is not `NotFound`, `SetState` goes on to create the
record. -/
theorem Set_creates_on_any_lookup_error_witness :
    ∃ c1 token, exampleDao.SetState (Cluster.empty [some (.Other "connection refused")]) "i1"
        (exampleState "t1" .StateInProgress) =
        some (c1, token, errorOf (JobStates.Create
          (JobStates.Get (Cluster.empty [some (.Other "connection refused")])
            (exampleState "t1" .StateInProgress).Token).1
          (newJobState exampleDao "i1" (exampleState "t1" .StateInProgress))).2) ∧
      c1.actions = (Cluster.empty [some (.Other "connection refused")]).actions ++
        [.Get .JobStates (exampleState "t1" .StateInProgress).Token,
         .Create .JobStates (exampleState "t1" .StateInProgress).Token] :=
  (Set_creates_on_any_lookup_error
    { Marshal := fun _ => .ok "", Unmarshal := fun _ => .ok .null } exampleDao
    (Cluster.empty [some (.Other "connection refused")])).1 "i1"
    (exampleState "t1" .StateInProgress) (.Other "connection refused") rfl

/-- Counterexample to C10 as stated: the existence lookup of `SetState` fails
with an error that is not `NotFound`; a create is attempted all the same (it
succeeds and stores the record) and the caller receives a nil error, not the
lookup error. -/
theorem SetState_lookup_error_counterexample :
    ∃ c1,
      (JobStates.Get (Cluster.empty [some (.Other "connection refused")]) "t1").2 =
        .error (.Other "connection refused") ∧
      exampleDao.IsNotFoundError (some (.Other "connection refused")) = false ∧
      exampleDao.SetState (Cluster.empty [some (.Other "connection refused")]) "i1"
        (exampleState "t1" .StateInProgress) = some (c1, "t1", none) ∧
      c1.actions = [.Get .JobStates "t1", .Create .JobStates "t1"] ∧
      storeGet c1.jobStates "t1" =
        some (newJobState exampleDao "i1" (exampleState "t1" .StateInProgress)) :=
  ⟨_, rfl, rfl, rfl, rfl, rfl⟩

/-! ## Theorems: enum conversions -/

/-- C18: every enum conversion is total with a fixed fallback.
`convertToAsyncType` maps `"optional"`, `"required"` and `"unsupported"` to
their counterparts and every other string to `RequiredAsync`;
`convertAsyncTypeToString` maps the three constants back (so each conversion
inverts the other on the three known values) and every other value to
`"required"`; the state conversions map the four states to their counterparts
and every other value to `Failed`; the method conversions map the five methods
to their counterparts and every other value to `Provision`. -/
theorem enum_conversions_fallback :
    (convertToAsyncType "optional" = .OptionalAsync ∧
      convertToAsyncType "required" = .RequiredAsync ∧
      convertToAsyncType "unsupported" = .Unsupported ∧
      ∀ s, s ≠ "optional" → s ≠ "required" → s ≠ "unsupported" →
        convertToAsyncType s = .RequiredAsync) ∧
    (convertAsyncTypeToString .OptionalAsync = "optional" ∧
      convertAsyncTypeToString .RequiredAsync = "required" ∧
      convertAsyncTypeToString .Unsupported = "unsupported" ∧
      ∀ raw, convertAsyncTypeToString (.other raw) = "required") ∧
    (∀ s, s = "optional" ∨ s = "required" ∨ s = "unsupported" →
      convertAsyncTypeToString (convertToAsyncType s) = s) ∧
    (∀ a, a = v1.AsyncType.OptionalAsync ∨ a = .RequiredAsync ∨ a = .Unsupported →
      convertToAsyncType (convertAsyncTypeToString a) = a) ∧
    (convertStateToCRD .StateNotYetStarted = .StateNotYetStarted ∧
      convertStateToCRD .StateInProgress = .StateInProgress ∧
      convertStateToCRD .StateSucceeded = .StateSucceeded ∧
      convertStateToCRD .StateFailed = .StateFailed ∧
      ∀ raw, convertStateToCRD (.other raw) = .StateFailed) ∧
    (convertStateToAPB .StateNotYetStarted = .StateNotYetStarted ∧
      convertStateToAPB .StateInProgress = .StateInProgress ∧
      convertStateToAPB .StateSucceeded = .StateSucceeded ∧
      convertStateToAPB .StateFailed = .StateFailed ∧
      ∀ raw, convertStateToAPB (.other raw) = .StateFailed) ∧
    (convertJobMethodToCRD .JobMethodProvision = .JobMethodProvision ∧
      convertJobMethodToCRD .JobMethodDeprovision = .JobMethodDeprovision ∧
      convertJobMethodToCRD .JobMethodBind = .JobMethodBind ∧
      convertJobMethodToCRD .JobMethodUnbind = .JobMethodUnbind ∧
      convertJobMethodToCRD .JobMethodUpdate = .JobMethodUpdate ∧
      ∀ raw, convertJobMethodToCRD (.other raw) = .JobMethodProvision) ∧
    (convertJobMethodToAPB .JobMethodProvision = .JobMethodProvision ∧
      convertJobMethodToAPB .JobMethodDeprovision = .JobMethodDeprovision ∧
      convertJobMethodToAPB .JobMethodBind = .JobMethodBind ∧
      convertJobMethodToAPB .JobMethodUnbind = .JobMethodUnbind ∧
      convertJobMethodToAPB .JobMethodUpdate = .JobMethodUpdate ∧
      ∀ raw, convertJobMethodToAPB (.other raw) = .JobMethodProvision) := by
  refine ⟨⟨by decide, by decide, by decide, ?_⟩, ⟨rfl, rfl, rfl, fun _ => rfl⟩, ?_, ?_,
    ⟨rfl, rfl, rfl, rfl, fun _ => rfl⟩, ⟨rfl, rfl, rfl, rfl, fun _ => rfl⟩,
    ⟨rfl, rfl, rfl, rfl, rfl, fun _ => rfl⟩, ⟨rfl, rfl, rfl, rfl, rfl, fun _ => rfl⟩⟩
  · intro s h1 h2 h3
    simp [convertToAsyncType, h1, h2, h3]
  · rintro s (rfl | rfl | rfl) <;> decide
  · rintro a (rfl | rfl | rfl) <;> decide

/-- Witness of C18: an unknown async type falls back to `RequiredAsync`. -/
theorem enum_conversions_fallback_witness : convertToAsyncType "sometimes" = .RequiredAsync :=
  enum_conversions_fallback.1.2.2.2 "sometimes" (by decide) (by decide) (by decide)

/-! ## Theorems: label maps of reachable stores -/

theorem mem_storeReplace {α : Type} (objs : List (v1.Object α)) (obj o : v1.Object α)
    (h : o ∈ storeReplace objs obj) : o = obj ∨ o ∈ objs := by
  induction objs with
  | nil => simp [storeReplace] at h
  | cons y rest ih =>
    by_cases hy : y.ObjectMeta.Name = obj.ObjectMeta.Name
    · simp [storeReplace, hy] at h
      rcases h with h | h
      · exact Or.inl h
      · exact Or.inr (List.mem_cons_of_mem _ h)
    · simp [storeReplace, hy] at h
      rcases h with h | h
      · exact Or.inr (by simp [h])
      · rcases ih h with h2 | h2
        · exact Or.inl h2
        · exact Or.inr (List.mem_cons_of_mem _ h2)

/-- Every `SetState` that returns keeps the property that each stored job
state has a label map with the `instanceId` and the `state` label. -/
theorem SetState_keeps_labels (d : Dao) (c c1 : Cluster) (instanceID token : String)
    (js : apb.JobState) (err : Option Error)
    (hinv : ∀ o ∈ c.jobStates, ∃ labels, o.ObjectMeta.Labels = some labels ∧
      (labelGet labels jobStateInstanceLabel).isSome = true ∧
      (labelGet labels jobStateLabel).isSome = true)
    (h : d.SetState c instanceID js = some (c1, token, err)) :
    ∀ o ∈ c1.jobStates, ∃ labels, o.ObjectMeta.Labels = some labels ∧
      (labelGet labels jobStateInstanceLabel).isSome = true ∧
      (labelGet labels jobStateLabel).isSome = true := by
  cases err with
  | some e =>
    obtain ⟨h1, -⟩ := SetState_err_unchanged d c c1 instanceID token js e h
    rw [h1]
    exact hinv
  | none =>
    obtain ⟨-, -, hcase⟩ := SetState_ok d c c1 instanceID token js h
    rcases hcase with ⟨old, labels0, hg, hl, hj⟩ | ⟨hg, hj⟩
    · intro o ho
      rw [hj] at ho
      rcases mem_storeReplace _ _ _ ho with rfl | hmem
      · obtain ⟨labels1, hl1, hi1, -⟩ := hinv old (storeGet_mem _ _ _ hg)
        rw [hl] at hl1
        cases hl1
        refine ⟨_, rfl, ?_, ?_⟩
        · rw [labelGet_labelSet_other _ _ _ _ (by decide)]
          exact hi1
        · rw [labelGet_labelSet_same]
          rfl
      · exact hinv o hmem
    · intro o ho
      rw [hj] at ho
      rcases List.mem_append.mp ho with hmem | hmem
      · exact hinv o hmem
      · simp only [List.mem_singleton] at hmem
        subst hmem
        exact ⟨_, rfl, by simp [labelGet, jobStateInstanceLabel],
          by simp [labelGet, jobStateInstanceLabel, jobStateLabel]⟩

theorem SetStateSeq_labels (d : Dao) (calls : List (String × apb.JobState)) :
    ∀ c : Cluster,
      (∀ o ∈ c.jobStates, ∃ labels, o.ObjectMeta.Labels = some labels ∧
        (labelGet labels jobStateInstanceLabel).isSome = true ∧
        (labelGet labels jobStateLabel).isSome = true) →
      ∃ c1, SetStateSeq d c calls = some c1 ∧
        ∀ o ∈ c1.jobStates, ∃ labels, o.ObjectMeta.Labels = some labels ∧
          (labelGet labels jobStateInstanceLabel).isSome = true ∧
          (labelGet labels jobStateLabel).isSome = true := by
  induction calls with
  | nil => intro c hinv; exact ⟨c, rfl, hinv⟩
  | cons x rest ih =>
    intro c hinv
    obtain ⟨instanceID, js⟩ := x
    obtain ⟨c1, token, err, hset⟩ := SetState_isSome d c instanceID js (by
      intro o ho
      obtain ⟨labels, hl, -, -⟩ := hinv o (storeGet_mem _ _ _ ho)
      simp [hl])
    obtain ⟨c2, hrun, hinv2⟩ := ih c1 (SetState_keeps_labels d c c1 instanceID token js err hinv hset)
    exact ⟨c2, by simp [SetStateSeq, hset, hrun], hinv2⟩

/-- C19: every sequence of `SetState` calls on the empty store, whatever the
cluster API fails, runs without a panic, and in the store it reaches each
job-state record has a label map holding both the `instanceId` and the `state`
label; so a further `SetState` on that store returns (with or without an
error): its update path does not write into a nil map. -/
theorem SetState_reachable_labels (d : Dao) (faults : List (Option Error))
    (calls : List (String × apb.JobState)) :
    ∃ c, SetStateSeq d (Cluster.empty faults) calls = some c ∧
      (∀ o ∈ c.jobStates, ∃ labels, o.ObjectMeta.Labels = some labels ∧
        (labelGet labels jobStateInstanceLabel).isSome = true ∧
        (labelGet labels jobStateLabel).isSome = true) ∧
      ∀ instanceID js, (d.SetState c instanceID js).isSome = true := by
  obtain ⟨c, hrun, hinv⟩ := SetStateSeq_labels d calls (Cluster.empty faults) (by
    intro o ho
    simp [Cluster.empty] at ho)
  refine ⟨c, hrun, hinv, ?_⟩
  intro instanceID js
  obtain ⟨c1, token, err, hset⟩ := SetState_isSome d c instanceID js (by
    intro o ho
    obtain ⟨labels, hl, -, -⟩ := hinv o (storeGet_mem _ _ _ ho)
    simp [hl])
  simp [hset]

/-! ## Theorems: service-instance conversion -/

theorem bindingIDsLoop_eq (entries : List (String × Bool)) :
    ∀ acc : List String, bindingIDsLoop entries acc = acc ++ entries.map Prod.fst := by
  induction entries with
  | nil => intro acc; simp [bindingIDsLoop]
  | cons x rest ih =>
    intro acc
    obtain ⟨k, v⟩ := x
    simp [bindingIDsLoop, ih]

theorem mem_keys_bindingSet (m : List (String × Bool)) (k : String) (v : Bool) (x : String) :
    x ∈ (bindingSet m k v).map Prod.fst ↔ x = k ∨ x ∈ m.map Prod.fst := by
  induction m with
  | nil => simp [bindingSet]
  | cons y rest ih =>
    obtain ⟨k1, v1⟩ := y
    by_cases hk : k1 = k
    · subst hk
      simp [bindingSet]
    · simp only [bindingSet, hk, if_false, List.map_cons, List.mem_cons, ih]
      tauto

theorem nodup_keys_bindingSet (m : List (String × Bool)) (k : String) (v : Bool)
    (h : (m.map Prod.fst).Nodup) : ((bindingSet m k v).map Prod.fst).Nodup := by
  induction m with
  | nil => simp [bindingSet]
  | cons y rest ih =>
    obtain ⟨k1, v1⟩ := y
    simp only [List.map_cons, List.nodup_cons] at h
    by_cases hk : k1 = k
    · subst hk
      simpa [bindingSet] using h
    · simp only [bindingSet, hk, if_false, List.map_cons, List.nodup_cons]
      refine ⟨?_, ih h.2⟩
      rw [mem_keys_bindingSet]
      rintro (h1 | h1)
      · exact hk h1
      · exact h.1 h1

theorem values_bindingSet (m : List (String × Bool)) (k : String)
    (h : ∀ kv ∈ m, kv.2 = true) : ∀ kv ∈ bindingSet m k true, kv.2 = true := by
  induction m with
  | nil => simp [bindingSet]
  | cons y rest ih =>
    obtain ⟨k1, v1⟩ := y
    by_cases hk : k1 = k
    · intro kv hkv
      simp only [bindingSet, hk, if_true, List.mem_cons] at hkv
      rcases hkv with rfl | hkv
      · rfl
      · exact h kv (List.mem_cons_of_mem _ hkv)
    · intro kv hkv
      simp only [bindingSet, hk, if_false, List.mem_cons] at hkv
      rcases hkv with rfl | hkv
      · exact h _ (List.mem_cons_self _ _)
      · exact ih (fun kv hm => h kv (List.mem_cons_of_mem _ hm)) kv hkv

theorem bindingIDsToAPBLoop_spec (ids : List String) :
    ∀ acc : List (String × Bool), (acc.map Prod.fst).Nodup → (∀ kv ∈ acc, kv.2 = true) →
      (∀ x, x ∈ (bindingIDsToAPBLoop ids acc).map Prod.fst ↔ x ∈ ids ∨ x ∈ acc.map Prod.fst) ∧
      ((bindingIDsToAPBLoop ids acc).map Prod.fst).Nodup ∧
      ∀ kv ∈ bindingIDsToAPBLoop ids acc, kv.2 = true := by
  induction ids with
  | nil =>
    intro acc hnd hv
    exact ⟨by simp [bindingIDsToAPBLoop], by simpa [bindingIDsToAPBLoop] using hnd,
      by simpa only [bindingIDsToAPBLoop] using hv⟩
  | cons val rest ih =>
    intro acc hnd hv
    obtain ⟨h1, h2, h3⟩ := ih (bindingSet acc val true) (nodup_keys_bindingSet _ _ _ hnd)
      (values_bindingSet _ _ hv)
    refine ⟨?_, h2, h3⟩
    intro x
    simp only [bindingIDsToAPBLoop]
    rw [h1, mem_keys_bindingSet]
    simp only [List.mem_cons]
    tauto

/-- C17: whenever both conversions of a service instance return a result,
the `BindingIDs` map of `convertServiceInstanceToAPB(convertServiceInstanceToCRD(si),
spec, id)` has exactly the keys of `si.BindingIDs`, each once and each mapped
to `true`, and the namespace/platform context of `si`.  Both conversions do
return a result for an instance that has a spec and a context and whose
parameters, if any, encode to a document that decodes again. -/
theorem bindingIDs_survive_persistence (json : JSON) (parse : String → uuid.UUID)
    (si : apb.ServiceInstance) (spec : Option apb.Spec) (id : String) :
    (∀ crd si2, convertServiceInstanceToCRD json si = some (.ok crd) →
      convertServiceInstanceToAPB json parse crd spec id = .ok si2 →
        (∀ key, key ∈ si2.BindingIDs.map Prod.fst ↔ key ∈ si.BindingIDs.map Prod.fst) ∧
        (si2.BindingIDs.map Prod.fst).Nodup ∧
        (∀ kv ∈ si2.BindingIDs, kv.2 = true) ∧
        si2.Context = si.Context) ∧
    (∀ sp ctx, si.Spec = some sp → si.Context = some ctx →
      (∀ p, si.Parameters = some p → ∃ b, json.Marshal (.object p) = .ok b ∧
        (b ≠ "" → ∃ m, unmarshalObject json b = .ok m)) →
      ∃ crd si2, convertServiceInstanceToCRD json si = some (.ok crd) ∧
        convertServiceInstanceToAPB json parse crd spec id = .ok si2) := by
  refine ⟨?_, ?_⟩
  · intro crd si2 h1 h2
    unfold convertServiceInstanceToCRD at h1
    simp only at h1
    split at h1
    · simp at h1
    · rename_i b hb
      rcases hs : si.Spec with _ | sp
      · simp [hs] at h1
      rcases hc : si.Context with _ | ctx
      · simp [hs, hc] at h1
      simp only [hs, hc, Option.some.injEq, Except.ok.injEq] at h1
      subst h1
      unfold convertServiceInstanceToAPB at h2
      simp only at h2
      split at h2
      · simp at h2
      · rename_i parameters hp
        simp only [Except.ok.injEq] at h2
        subst h2
        obtain ⟨k1, k2, k3⟩ := bindingIDsToAPBLoop_spec (bindingIDsLoop si.BindingIDs []) []
          (by simp) (by simp)
        refine ⟨?_, k2, k3, rfl⟩
        intro key
        rw [k1, bindingIDsLoop_eq]
        simp
  · intro sp ctx hs hc hp
    have key : ∃ b, convertServiceInstanceToCRD json si =
        some (.ok { BundleID := sp.ID,
                    Context := { Namespace := ctx.Namespace, Plateform := ctx.Platform },
                    Parameters := b, BindingIDs := bindingIDsLoop si.BindingIDs [] }) ∧
        (b ≠ "" → ∃ m, unmarshalObject json b = .ok m) := by
      rcases hpar : si.Parameters with _ | p
      · exact ⟨"", by simp [convertServiceInstanceToCRD, hs, hc, hpar], by simp⟩
      · obtain ⟨b, hb, hm⟩ := hp p hpar
        exact ⟨b, by simp [convertServiceInstanceToCRD, hs, hc, hpar, hb], hm⟩
    obtain ⟨b, h1, hm⟩ := key
    cases h2 : convertServiceInstanceToAPB json parse
        { BundleID := sp.ID,
          Context := { Namespace := ctx.Namespace, Plateform := ctx.Platform },
          Parameters := b, BindingIDs := bindingIDsLoop si.BindingIDs [] } spec id with
    | error e =>
      by_cases hb : b = ""
      · simp [convertServiceInstanceToAPB, hb] at h2
      · obtain ⟨m, hm2⟩ := hm hb
        simp [convertServiceInstanceToAPB, hb, hm2] at h2
    | ok si2 => exact ⟨_, si2, h1, h2⟩

/-- Witness of C17: an instance with the binding IDs `b1` (mapped to `true`)
and `b2` (mapped to `false`) comes back with both keys mapped to `true`. -/
theorem bindingIDs_survive_persistence_witness :
    ∃ crd si2,
      convertServiceInstanceToCRD exampleJSON
          (exampleServiceInstance [("b1", true), ("b2", false)]) = some (.ok crd) ∧
      convertServiceInstanceToAPB exampleJSON exampleParse crd none "i1" = .ok si2 ∧
      si2.BindingIDs = [("b1", true), ("b2", true)] ∧
      ((∀ key, key ∈ si2.BindingIDs.map Prod.fst ↔
          key ∈ (exampleServiceInstance [("b1", true), ("b2", false)]).BindingIDs.map Prod.fst) ∧
        (si2.BindingIDs.map Prod.fst).Nodup ∧
        (∀ kv ∈ si2.BindingIDs, kv.2 = true) ∧
        si2.Context = (exampleServiceInstance [("b1", true), ("b2", false)]).Context) :=
  ⟨_, _, rfl, rfl, rfl,
    (bindingIDs_survive_persistence exampleJSON exampleParse
      (exampleServiceInstance [("b1", true), ("b2", false)]) none "i1").1 _ _ rfl rfl⟩

/-! ## Theorems: parameter, plan and bundle conversion -/

theorem convertBound_none_of_some (bound : Option Float64) (h : bound ≠ none) :
    convertBound bound = none := by
  cases bound with
  | none => exact absurd rfl h
  | some x => rfl

/-- C16, the code at the failing input: a parameter descriptor with a
present maximum.  Every block that copies a bound calls `Float` on the
`reflect.Value` of the pointer itself, whose kind is `Ptr`, so both
conversions panic as soon as the default has been encoded (decoded) and one
of the four bounds is present; they return, with all four bounds absent, only
when all four are absent. -/
theorem convertParameters_present_bound_panics :
    convertParametersToCRD exampleJSON
      (exampleParameter .null (some { bits := 4621819117588971520 })) = none ∧
    convertParametersToAPB exampleJSON
      (examplePersistedParameter "\x7b\"default\":null\x7d"
        (some { bits := 4621819117588971520 })) = none ∧
    (∀ (json : JSON) (param : apb.ParameterDescriptor) (b : String),
      json.Marshal (.object [("default", param.Default)]) = .ok b →
      (param.Maximum ≠ none ∨ param.ExclusiveMaximum ≠ none ∨ param.Minimum ≠ none ∨
        param.ExclusiveMinimum ≠ none) →
      convertParametersToCRD json param = none) ∧
    (∀ (json : JSON) (param : v1.Parameters) (m : List (String × Value)),
      unmarshalObject json param.Default = .ok m →
      (param.Maximum ≠ none ∨ param.ExclusiveMaximum ≠ none ∨ param.Minimum ≠ none ∨
        param.ExclusiveMinimum ≠ none) →
      convertParametersToAPB json param = none) ∧
    (∀ (json : JSON) (param : apb.ParameterDescriptor) (crd : v1.Parameters),
      convertParametersToCRD json param = some (.ok crd) →
      param.Maximum = none ∧ param.ExclusiveMaximum = none ∧ param.Minimum = none ∧
        param.ExclusiveMinimum = none ∧
      crd.Maximum = none ∧ crd.ExclusiveMaximum = none ∧ crd.Minimum = none ∧
        crd.ExclusiveMinimum = none) := by
  refine ⟨rfl, rfl, ?_, ?_, ?_⟩
  · intro json param b hb hbound
    unfold convertParametersToCRD
    simp only [hb]
    cases h1 : param.Maximum with
    | some x => rfl
    | none =>
      cases h2 : param.ExclusiveMaximum with
      | some x => rfl
      | none =>
        cases h3 : param.Minimum with
        | some x => rfl
        | none =>
          cases h4 : param.ExclusiveMinimum with
          | some x => rfl
          | none => simp [h1, h2, h3, h4] at hbound
  · intro json param m hm hbound
    unfold convertParametersToAPB
    simp only [hm]
    cases h1 : param.Maximum with
    | some x => rfl
    | none =>
      cases h2 : param.ExclusiveMaximum with
      | some x => rfl
      | none =>
        cases h3 : param.Minimum with
        | some x => rfl
        | none =>
          cases h4 : param.ExclusiveMinimum with
          | some x => rfl
          | none => simp [h1, h2, h3, h4] at hbound
  · intro json param crd h
    unfold convertParametersToCRD at h
    cases hb : json.Marshal (.object [("default", param.Default)]) with
    | error e => simp [hb] at h
    | ok b =>
      simp only [hb] at h
      cases h1 : param.Maximum with
      | some x => simp [h1, convertBound, reflect.ValueOf, reflect.Value.Float] at h
      | none =>
        cases h2 : param.ExclusiveMaximum with
        | some x => simp [h1, h2, convertBound, reflect.ValueOf, reflect.Value.Float] at h
        | none =>
          cases h3 : param.Minimum with
          | some x => simp [h1, h2, h3, convertBound, reflect.ValueOf, reflect.Value.Float] at h
          | none =>
            cases h4 : param.ExclusiveMinimum with
            | some x =>
              simp [h1, h2, h3, h4, convertBound, reflect.ValueOf, reflect.Value.Float] at h
            | none =>
              simp [h1, h2, h3, h4, convertBound] at h
              subst h
              simp

/-- C14, the code at the failing input: a plan with one parameter whose
default cannot be encoded.  The parameter conversion fails, yet
`convertPlanToCRD` returns the zero plan with a nil error, `specToBundle`
returns a bundle holding that zero plan with a nil error, and `SetSpec` stores
it and returns nil.  In general the only error `convertPlanToCRD` returns is
the error of encoding the plan metadata. -/
theorem convertPlanToCRD_drops_parameter_errors :
    convertParametersToCRD exampleJSON (exampleParameter (.unsupported "chan int") none) =
      some (.error (.Other "json: unsupported type: chan int")) ∧
    convertPlanToCRD exampleJSON
      (examplePlan [exampleParameter (.unsupported "chan int") none]) =
      some (v1.Plan.zero, none) ∧
    specToBundle exampleJSON
      (exampleSpec "b1" [examplePlan [exampleParameter (.unsupported "chan int") none]]) =
      some (.ok (exampleBundleSpec [v1.Plan.zero])) ∧
    (∃ c1, exampleDao.SetSpec exampleJSON (Cluster.empty []) "b1"
        (exampleSpec "b1" [examplePlan [exampleParameter (.unsupported "chan int") none]]) =
        some (c1, none) ∧
      (storeGet c1.bundles "b1").map (fun b => b.Spec.Plans) = some [v1.Plan.zero]) ∧
    (∀ (json : JSON) (plan : apb.Plan) (p : v1.Plan) (e : Error),
      convertPlanToCRD json plan = some (p, some e) →
      json.Marshal (.object plan.Metadata) = .error e) := by
  refine ⟨rfl, rfl, rfl, ⟨_, rfl, rfl⟩, ?_⟩
  intro json plan p e h
  unfold convertPlanToCRD at h
  cases hb : json.Marshal (.object plan.Metadata) with
  | error e2 =>
    simp [hb] at h
    rw [h.2]
  | ok b =>
    simp only [hb] at h
    split at h
    · simp at h
    · split at h
      · simp at h
      · split at h <;> simp at h

/-- C15, the code at the failing input: a persisted plan with two
parameters, the first with a default that does not decode.  The conversion of
that parameter fails, yet `convertPlanToAPB` returns a nil error and a plan
that lacks the parameter, and so does `bundleToSpec` for a bundle holding the
plan.  In general the only error `convertPlanToAPB` returns is the error of
decoding the plan metadata. -/
theorem convertPlanToAPB_drops_parameter_errors :
    convertParametersToAPB exampleJSON (examplePersistedParameter "not json" none) =
      some (.error (.Other "invalid character")) ∧
    convertPlanToAPB exampleJSON
      (examplePersistedPlan [examplePersistedParameter "not json" none,
        examplePersistedParameter "\x7b\"default\":null\x7d" none]) =
      some (.ok (examplePlan [exampleParameter .null none])) ∧
    bundleToSpec exampleJSON
      (exampleBundleSpec [examplePersistedPlan [examplePersistedParameter "not json" none,
        examplePersistedParameter "\x7b\"default\":null\x7d" none]]) "b1" =
      some (.ok (exampleSpec "b1" [examplePlan [exampleParameter .null none]])) ∧
    (∀ (json : JSON) (plan : v1.Plan) (e : Error),
      convertPlanToAPB json plan = some (.error e) →
      unmarshalObject json plan.Metadata = .error e) := by
  refine ⟨rfl, rfl, rfl, ?_⟩
  intro json plan e h
  unfold convertPlanToAPB at h
  cases hm : unmarshalObject json plan.Metadata with
  | error e2 =>
    simp [hm] at h
    rw [h]
  | ok m =>
    simp only [hm] at h
    split at h
    · simp at h
    · split at h <;> simp at h

/-! ## Theorems: bulk reads -/

theorem batchGetSpecsLoop_eq (json : JSON) (items : List v1.Bundle)
    (hp : ∀ b ∈ items, (bundleToSpec json b.Spec b.ObjectMeta.Name).isSome = true) :
    ∀ (specs : List apb.Spec) (errs : List Error),
      batchGetSpecsLoop json items specs errs =
        some (specs ++ convertedSpecs json items, errs ++ conversionErrors json items) := by
  induction items with
  | nil => intro specs errs; simp [batchGetSpecsLoop, convertedSpecs, conversionErrors]
  | cons b rest ih =>
    intro specs errs
    have hrest := ih (fun x hx => hp x (List.mem_cons_of_mem _ hx))
    have hb := hp b (List.mem_cons_self _ _)
    rcases hr : bundleToSpec json b.Spec b.ObjectMeta.Name with _ | r
    · simp [hr] at hb
    · cases r with
      | error e =>
        simp only [batchGetSpecsLoop, hr, hrest]
        simp [convertedSpecs, conversionErrors, List.filterMap_cons, hr]
      | ok spec =>
        simp only [batchGetSpecsLoop, hr, hrest]
        simp [convertedSpecs, conversionErrors, List.filterMap_cons, hr]

theorem converted_length (json : JSON) (items : List v1.Bundle)
    (hp : ∀ b ∈ items, (bundleToSpec json b.Spec b.ObjectMeta.Name).isSome = true) :
    (convertedSpecs json items).length + (conversionErrors json items).length = items.length := by
  induction items with
  | nil => simp [convertedSpecs, conversionErrors]
  | cons b rest ih =>
    have hrest := ih (fun x hx => hp x (List.mem_cons_of_mem _ hx))
    have hb := hp b (List.mem_cons_self _ _)
    simp only [convertedSpecs, conversionErrors] at hrest ⊢
    rcases hr : bundleToSpec json b.Spec b.ObjectMeta.Name with _ | r
    · simp [hr] at hb
    · cases r with
      | error e =>
        simp only [List.filterMap_cons, hr, List.length_cons]
        omega
      | ok spec =>
        simp only [List.filterMap_cons, hr, List.length_cons]
        omega

theorem conversionErrors_eq_nil_iff (json : JSON) (items : List v1.Bundle)
    (hp : ∀ b ∈ items, (bundleToSpec json b.Spec b.ObjectMeta.Name).isSome = true) :
    conversionErrors json items = [] ↔
      ∀ b ∈ items, ∃ spec, bundleToSpec json b.Spec b.ObjectMeta.Name = some (.ok spec) := by
  induction items with
  | nil => simp [conversionErrors]
  | cons b rest ih =>
    have hrest := ih (fun x hx => hp x (List.mem_cons_of_mem _ hx))
    have hb := hp b (List.mem_cons_self _ _)
    simp only [conversionErrors] at hrest ⊢
    rcases hr : bundleToSpec json b.Spec b.ObjectMeta.Name with _ | r
    · simp [hr] at hb
    · cases r with
      | error e => simp [List.filterMap_cons, hr]
      | ok spec => simp [List.filterMap_cons, hr, hrest]

theorem Bundles_List_all (c : Cluster) (hf : c.nextFault = none) :
    Bundles.List c [] = (c.logged (.List .Bundles []), .ok c.bundles) := by
  unfold Bundles.List Cluster.call
  simp [hf, selectorMatches, Cluster.logged]

/-- What `BatchGetSpecs` returns when the list call succeeds and no conversion
panics: the specs of the listed bundles that `bundleToSpec` converts, in
listing order, and an error that is nil when no bundle failed and otherwise
the aggregate of the errors of the bundles that failed, in listing order. -/
theorem BatchGetSpecs_aggregates (json : JSON) (d : Dao) (c : Cluster) (dir : String)
    (hf : c.nextFault = none)
    (hp : ∀ b ∈ c.bundles, (bundleToSpec json b.Spec b.ObjectMeta.Name).isSome = true) :
    ∃ c1 err,
      d.BatchGetSpecs json c dir = some (c1, convertedSpecs json c.bundles, err) ∧
      (conversionErrors json c.bundles = [] → err = none) ∧
      (conversionErrors json c.bundles ≠ [] →
        err = some (.arrayErrors (conversionErrors json c.bundles))) ∧
      (convertedSpecs json c.bundles).length + (conversionErrors json c.bundles).length =
        c.bundles.length ∧
      (err = none ↔
        ∀ b ∈ c.bundles, ∃ spec, bundleToSpec json b.Spec b.ObjectMeta.Name = some (.ok spec)) := by
  have hloop := batchGetSpecsLoop_eq json c.bundles hp [] []
  simp only [List.nil_append] at hloop
  have hlen := converted_length json c.bundles hp
  have hiff := conversionErrors_eq_nil_iff json c.bundles hp
  unfold Dao.BatchGetSpecs
  rw [Bundles_List_all c hf]
  simp only [hloop]
  rcases herrs : conversionErrors json c.bundles with _ | ⟨e, es⟩
  · refine ⟨c.logged (.List .Bundles []), none, by simp, fun _ => rfl, fun h => absurd rfl h,
      by simpa [herrs] using hlen, ?_⟩
    rw [herrs] at hiff
    simpa using hiff
  · refine ⟨c.logged (.List .Bundles []), some (.arrayErrors (e :: es)), by simp,
      fun h => by simp at h, fun _ => rfl, by simpa [herrs] using hlen, ?_⟩
    rw [herrs] at hiff
    constructor
    · intro h
      simp at h
    · intro h
      exact absurd (hiff.mpr h) (by simp)

/-- C13, the code at the failing input: a store holding the bundle `b1`
without plans and the bundle `b3` whose plan has a parameter with the maximum
10.  `b1` converts, but `bundleToSpec` panics on `b3` (the bound is read with
`Float` on the `reflect.Value` of the pointer), so `BatchGetSpecs` panics and
returns neither the spec of `b1` nor an aggregate error.  For comparison, on
the example store whose second bundle has metadata that does not decode it
returns the spec of `b1` and the aggregate of the one error. -/
theorem BatchGetSpecs_panics_on_bounded_parameter :
    exampleBoundedBundleCluster.nextFault = none ∧
    exampleBoundedBundleCluster.bundles.map (fun b => b.ObjectMeta.Name) = ["b1", "b3"] ∧
    bundleToSpec exampleJSON (exampleBundle "b1" "\x7b\x7d").Spec "b1" =
      some (.ok (exampleSpec "b1" [])) ∧
    (∀ b ∈ exampleBoundedBundleCluster.bundles, b.ObjectMeta.Name = "b3" →
      bundleToSpec exampleJSON b.Spec b.ObjectMeta.Name = none) ∧
    exampleDao.BatchGetSpecs exampleJSON exampleBoundedBundleCluster "" = none ∧
    (∃ c1, exampleDao.BatchGetSpecs exampleJSON exampleBundleCluster "" =
      some (c1, [exampleSpec "b1" []], some (.arrayErrors [.Other "invalid character"]))) := by
  refine ⟨rfl, rfl, rfl, ?_, rfl, ⟨_, rfl⟩⟩
  intro b hb hname
  simp only [exampleBoundedBundleCluster, List.mem_cons, List.mem_singleton, List.not_mem_nil,
    or_false] at hb
  rcases hb with rfl | rfl
  · exact absurd hname (by decide)
  · rfl

/-! ## Theorems: batch writes -/

theorem DeleteSpec_actions (d : Dao) (c : Cluster) (specID : String) :
    (d.DeleteSpec c specID).1.actions = c.actions ++ [.Delete .Bundles specID] := by
  unfold Dao.DeleteSpec Bundles.Delete Cluster.call
  cases c.nextFault with
  | some e => rfl
  | none =>
    simp only
    cases storeGet (c.logged (.Delete .Bundles specID)).bundles specID <;> rfl

theorem BatchDeleteSpecs_first_failure (d : Dao) (specs : List apb.Spec) :
    ∀ (c : Cluster) (i : Nat) (spec : apb.Spec) (c1 : Cluster) (e : Error),
      specs[i]? = some spec →
      (∀ j sj, j < i → specs[j]? = some sj →
        (d.DeleteSpec (DeleteSpecAll d c (specs.take j)) sj.ID).2 = none) →
      d.DeleteSpec (DeleteSpecAll d c (specs.take i)) spec.ID = (c1, some e) →
      d.BatchDeleteSpecs c specs = (c1, some e) ∧
        c1.actions = c.actions ++
          (specs.take (i + 1)).map fun s => ClientAction.Delete .Bundles s.ID := by
  induction specs with
  | nil => intro c i spec c1 e hi; simp at hi
  | cons s0 rest ih =>
    intro c i spec c1 e hi hprev hdel
    cases i with
    | zero =>
      simp only [List.getElem?_cons_zero, Option.some.injEq] at hi
      subst hi
      simp only [List.take_zero, DeleteSpecAll] at hdel
      have hact := DeleteSpec_actions d c s0.ID
      rw [hdel] at hact
      exact ⟨by simp [Dao.BatchDeleteSpecs, hdel], by simpa using hact⟩
    | succ k =>
      simp only [List.getElem?_cons_succ] at hi
      have h0 := hprev 0 s0 (Nat.succ_pos k) (by simp)
      simp only [List.take_zero, DeleteSpecAll] at h0
      rcases hd0 : d.DeleteSpec c s0.ID with ⟨c0, r0⟩
      rw [hd0] at h0
      simp only at h0
      subst h0
      have hact0 := DeleteSpec_actions d c s0.ID
      rw [hd0] at hact0
      simp only at hact0
      obtain ⟨h1, h2⟩ := ih c0 k spec c1 e hi
        (by
          intro j sj hj hsj
          have := hprev (j + 1) sj (Nat.succ_lt_succ hj) (by simpa using hsj)
          simpa [List.take_succ_cons, DeleteSpecAll, hd0] using this)
        (by simpa [List.take_succ_cons, DeleteSpecAll, hd0] using hdel)
      refine ⟨by simp [Dao.BatchDeleteSpecs, hd0, h1], ?_⟩
      rw [h2, hact0]
      simp [List.take_succ_cons]

theorem BatchDeleteSpecs_no_failure (d : Dao) (specs : List apb.Spec) :
    ∀ (c : Cluster),
      (∀ j sj, specs[j]? = some sj →
        (d.DeleteSpec (DeleteSpecAll d c (specs.take j)) sj.ID).2 = none) →
      d.BatchDeleteSpecs c specs = (DeleteSpecAll d c specs, none) ∧
        (DeleteSpecAll d c specs).actions = c.actions ++
          specs.map fun s => ClientAction.Delete .Bundles s.ID := by
  induction specs with
  | nil => intro c _; simp [Dao.BatchDeleteSpecs, DeleteSpecAll]
  | cons s0 rest ih =>
    intro c hall
    have h0 := hall 0 s0 (by simp)
    simp only [List.take_zero, DeleteSpecAll] at h0
    rcases hd0 : d.DeleteSpec c s0.ID with ⟨c0, r0⟩
    rw [hd0] at h0
    simp only at h0
    subst h0
    have hact0 := DeleteSpec_actions d c s0.ID
    rw [hd0] at hact0
    simp only at hact0
    obtain ⟨h1, h2⟩ := ih c0 (by
      intro j sj hsj
      have := hall (j + 1) sj (by simpa using hsj)
      simpa [List.take_succ_cons, DeleteSpecAll, hd0] using this)
    refine ⟨by simp [Dao.BatchDeleteSpecs, DeleteSpecAll, hd0, h1], ?_⟩
    simp only [DeleteSpecAll, hd0, h2, hact0]
    simp

theorem BatchSetSpecs_first_failure (json : JSON) (d : Dao) (entries : List (String × apb.Spec)) :
    ∀ (c : Cluster) (i : Nat) (id : String) (spec : apb.Spec) (c1 : Cluster) (e : Error),
      entries[i]? = some (id, spec) →
      (∀ j idj sj, j < i → entries[j]? = some (idj, sj) →
        ∃ cj, d.SetSpec json (SetSpecAll json d c (entries.take j)) idj sj = some (cj, none)) →
      d.SetSpec json (SetSpecAll json d c (entries.take i)) id spec = some (c1, some e) →
      d.BatchSetSpecs json c entries = some (c1, some e) := by
  induction entries with
  | nil => intro c i id spec c1 e hi; simp at hi
  | cons x rest ih =>
    intro c i id spec c1 e hi hprev hset
    obtain ⟨id0, s0⟩ := x
    cases i with
    | zero =>
      simp only [List.getElem?_cons_zero, Option.some.injEq, Prod.mk.injEq] at hi
      obtain ⟨rfl, rfl⟩ := hi
      simp only [List.take_zero, SetSpecAll] at hset
      simp [Dao.BatchSetSpecs, hset]
    | succ k =>
      simp only [List.getElem?_cons_succ] at hi
      obtain ⟨c0, hs0⟩ := hprev 0 id0 s0 (Nat.succ_pos k) (by simp)
      simp only [List.take_zero, SetSpecAll] at hs0
      have h1 := ih c0 k id spec c1 e hi
        (by
          intro j idj sj hj hsj
          have := hprev (j + 1) idj sj (Nat.succ_lt_succ hj) (by simpa using hsj)
          simpa [List.take_succ_cons, SetSpecAll, hs0] using this)
        (by simpa [List.take_succ_cons, SetSpecAll, hs0] using hset)
      simp [Dao.BatchSetSpecs, hs0, h1]

theorem BatchSetSpecs_no_failure (json : JSON) (d : Dao) (entries : List (String × apb.Spec)) :
    ∀ (c : Cluster),
      (∀ j idj sj, entries[j]? = some (idj, sj) →
        ∃ cj, d.SetSpec json (SetSpecAll json d c (entries.take j)) idj sj = some (cj, none)) →
      d.BatchSetSpecs json c entries = some (SetSpecAll json d c entries, none) := by
  induction entries with
  | nil => intro c _; simp [Dao.BatchSetSpecs, SetSpecAll]
  | cons x rest ih =>
    intro c hall
    obtain ⟨id0, s0⟩ := x
    obtain ⟨c0, hs0⟩ := hall 0 id0 s0 (by simp)
    simp only [List.take_zero, SetSpecAll] at hs0
    have h1 := ih c0 (by
      intro j idj sj hsj
      have := hall (j + 1) idj sj (by simpa using hsj)
      simpa [List.take_succ_cons, SetSpecAll, hs0] using this)
    simp [Dao.BatchSetSpecs, SetSpecAll, hs0, h1]

/-- C12: batch delete fails fast.  If the `DeleteSpec` of the item at
position `i` is the first to fail, `BatchDeleteSpecs` returns the error and
the cluster of that call, and the API calls it has made are exactly the
deletes of the items `0..i` in list order; if no `DeleteSpec` fails it returns
nil after the deletes of all items in list order.  `BatchSetSpecs` does the
same with `SetSpec` over its entries in the order it visits them: it returns
the result of the first `SetSpec` that fails, and nil after all of them when
none fails. -/
theorem Batch_fails_fast (json : JSON) (d : Dao) (c : Cluster) :
    (∀ (specs : List apb.Spec),
      (∀ (i : Nat) (spec : apb.Spec) (c1 : Cluster) (e : Error),
        specs[i]? = some spec →
        (∀ j sj, j < i → specs[j]? = some sj →
          (d.DeleteSpec (DeleteSpecAll d c (specs.take j)) sj.ID).2 = none) →
        d.DeleteSpec (DeleteSpecAll d c (specs.take i)) spec.ID = (c1, some e) →
        d.BatchDeleteSpecs c specs = (c1, some e) ∧
          c1.actions = c.actions ++
            (specs.take (i + 1)).map fun s => ClientAction.Delete .Bundles s.ID) ∧
      ((∀ j sj, specs[j]? = some sj →
          (d.DeleteSpec (DeleteSpecAll d c (specs.take j)) sj.ID).2 = none) →
        d.BatchDeleteSpecs c specs = (DeleteSpecAll d c specs, none) ∧
          (DeleteSpecAll d c specs).actions = c.actions ++
            specs.map fun s => ClientAction.Delete .Bundles s.ID)) ∧
    (∀ (entries : List (String × apb.Spec)),
      (∀ (i : Nat) (id : String) (spec : apb.Spec) (c1 : Cluster) (e : Error),
        entries[i]? = some (id, spec) →
        (∀ j idj sj, j < i → entries[j]? = some (idj, sj) →
          ∃ cj, d.SetSpec json (SetSpecAll json d c (entries.take j)) idj sj = some (cj, none)) →
        d.SetSpec json (SetSpecAll json d c (entries.take i)) id spec = some (c1, some e) →
        d.BatchSetSpecs json c entries = some (c1, some e)) ∧
      ((∀ j idj sj, entries[j]? = some (idj, sj) →
          ∃ cj, d.SetSpec json (SetSpecAll json d c (entries.take j)) idj sj = some (cj, none)) →
        d.BatchSetSpecs json c entries = some (SetSpecAll json d c entries, none))) :=
  ⟨fun specs => ⟨BatchDeleteSpecs_first_failure d specs c, BatchDeleteSpecs_no_failure d specs c⟩,
    fun entries => ⟨BatchSetSpecs_first_failure json d entries c,
      BatchSetSpecs_no_failure json d entries c⟩⟩

/-- Witness of C12: of the three bundles `b1`, `missing`, `b2` asked to be
deleted from the example cluster, the second does not exist; the batch stops
there with `NotFound`, having deleted `b1` and left `b2`. -/
theorem Batch_fails_fast_witness :
    ∃ c1,
      exampleDao.BatchDeleteSpecs exampleBundleCluster
        [exampleSpec "b1" [], exampleSpec "missing" [], exampleSpec "b2" []] =
        (c1, some .NotFound) ∧
      c1.actions = exampleBundleCluster.actions ++
        ([exampleSpec "b1" [], exampleSpec "missing" [], exampleSpec "b2" []].take (1 + 1)).map
          (fun s => ClientAction.Delete .Bundles s.ID) ∧
      c1.bundles.map (fun b => b.ObjectMeta.Name) = ["b2"] :=
  ⟨_, ((Batch_fails_fast exampleJSON exampleDao exampleBundleCluster).1
      [exampleSpec "b1" [], exampleSpec "missing" [], exampleSpec "b2" []]).1 1
      (exampleSpec "missing" []) _ .NotFound rfl
      (by
        intro j sj hj hsj
        have hj0 : j = 0 := by omega
        subst hj0
        simp only [List.getElem?_cons_zero, Option.some.injEq] at hsj
        subst hsj
        rfl)
      rfl |>.1,
    ((Batch_fails_fast exampleJSON exampleDao exampleBundleCluster).1
      [exampleSpec "b1" [], exampleSpec "missing" [], exampleSpec "b2" []]).1 1
      (exampleSpec "missing" []) _ .NotFound rfl
      (by
        intro j sj hj hsj
        have hj0 : j = 0 := by omega
        subst hj0
        simp only [List.getElem?_cons_zero, Option.some.injEq] at hsj
        subst hsj
        rfl)
      rfl |>.2,
    rfl⟩

/-! ## Theorems: upsert and create-only writes -/

theorem nextFault_of_faults_nil (c : Cluster) (hf : c.faults = []) : c.nextFault = none := by
  simp [Cluster.nextFault, hf]

theorem logged_nextFault_of_faults_nil (c : Cluster) (a : ClientAction) (hf : c.faults = []) :
    (c.logged a).nextFault = none := by
  simp [Cluster.nextFault, Cluster.logged, hf]

/-- What the three setters do on a cluster API that fails no call by itself,
once their conversion has returned a result: `SetServiceInstance` returns nil,
replaces the spec of the record when the key exists and creates the record
when it is absent; `SetBindInstance` and `SetSpec` create the record and
return nil when the key is absent, and return the `AlreadyExists` error of the
create call, leaving the stored records as they were, when the key exists. -/
theorem Set_upsert_or_create_only (json : JSON) (str : uuid.UUID → String) (d : Dao)
    (c : Cluster) (id : String) (hf : c.faults = []) :
    (∀ si spec, convertServiceInstanceToCRD json si = some (.ok spec) →
      ∃ c1, d.SetServiceInstance json c id si = some (c1, none) ∧
        (∀ old, storeGet c.serviceInstances id = some old →
          c1.serviceInstances = storeReplace c.serviceInstances { old with Spec := spec } ∧
          storeGet c1.serviceInstances id = some { old with Spec := spec }) ∧
        (storeGet c.serviceInstances id = none →
          c1.serviceInstances = c.serviceInstances ++
            [{ ObjectMeta := { Name := id, Namespace := d.namespace_, Labels := none },
               Spec := spec }])) ∧
    (∀ bi b, convertServiceBindingToCRD json str bi = .ok b →
      (storeGet c.serviceBindings id = none →
        ∃ c1, d.SetBindInstance json str c id bi = (c1, none) ∧
          c1.serviceBindings = c.serviceBindings ++
            [{ ObjectMeta := { Name := id, Namespace := d.namespace_, Labels := none },
               Spec := b }]) ∧
      (∀ old, storeGet c.serviceBindings id = some old →
        ∃ c1, d.SetBindInstance json str c id bi = (c1, some .AlreadyExists) ∧
          c1.serviceBindings = c.serviceBindings)) ∧
    (∀ spec bundleSpec, specToBundle json spec = some (.ok bundleSpec) →
      (storeGet c.bundles id = none →
        ∃ c1, d.SetSpec json c id spec = some (c1, none) ∧
          c1.bundles = c.bundles ++
            [{ ObjectMeta := { Name := id, Namespace := d.namespace_, Labels := none },
               Spec := bundleSpec }]) ∧
      (∀ old, storeGet c.bundles id = some old →
        ∃ c1, d.SetSpec json c id spec = some (c1, some .AlreadyExists) ∧
          c1.bundles = c.bundles)) := by
  have hnf := nextFault_of_faults_nil c hf
  have hnf2 := fun a => logged_nextFault_of_faults_nil c a hf
  refine ⟨?_, ?_, ?_⟩
  · intro si spec hconv
    unfold Dao.SetServiceInstance
    simp only [hconv, ServiceInstances_Get_eq, hnf]
    cases hg : storeGet c.serviceInstances id with
    | none =>
      refine ⟨{ (c.logged (.Get .ServiceInstances id)).logged (.Create .ServiceInstances id) with
          serviceInstances := c.serviceInstances ++
            [{ ObjectMeta := { Name := id, Namespace := d.namespace_, Labels := none },
               Spec := spec }] }, ?_, fun old h => by simp at h, fun _ => rfl⟩
      simp only [ServiceInstances.Create, Cluster.call, hnf2, Cluster_logged_serviceInstances,
        hg]
    | some old =>
      have hn := storeGet_name _ _ _ hg
      have hg2 : storeGet c.serviceInstances
          ({ old with Spec := spec } : v1.ServiceInstance).ObjectMeta.Name = some old := by
        simpa [hn] using hg
      refine ⟨{ (c.logged (.Get .ServiceInstances id)).logged (.Update .ServiceInstances id) with
          serviceInstances := storeReplace c.serviceInstances { old with Spec := spec } },
        ?_, fun old2 h => ?_, fun h => by simp at h⟩
      · simp only [ServiceInstances.Update, Cluster.call, hnf2, Cluster_logged_serviceInstances,
          hn, hg]
      · simp only [Option.some.injEq] at h
        subst h
        refine ⟨rfl, ?_⟩
        have := storeGet_replace_same _ _ _ hg2
        simpa [hn] using this
  · intro bi b hconv
    refine ⟨fun hg => ?_, fun old hg => ?_⟩
    · unfold Dao.SetBindInstance
      simp only [hconv, ServiceBindings.Create, Cluster.call, hnf]
      have : storeGet (c.logged (.Create .ServiceBindings id)).serviceBindings id = none := hg
      simp only [this]
      exact ⟨_, rfl, rfl⟩
    · unfold Dao.SetBindInstance
      simp only [hconv, ServiceBindings.Create, Cluster.call, hnf]
      have : storeGet (c.logged (.Create .ServiceBindings id)).serviceBindings id = some old := hg
      simp only [this]
      exact ⟨_, rfl, rfl⟩
  · intro spec bundleSpec hconv
    refine ⟨fun hg => ?_, fun old hg => ?_⟩
    · unfold Dao.SetSpec
      simp only [hconv, Bundles.Create, Cluster.call, hnf]
      have : storeGet (c.logged (.Create .Bundles id)).bundles id = none := hg
      simp only [this]
      exact ⟨_, rfl, rfl⟩
    · unfold Dao.SetSpec
      simp only [hconv, Bundles.Create, Cluster.call, hnf]
      have : storeGet (c.logged (.Create .Bundles id)).bundles id = some old := hg
      simp only [this]
      exact ⟨_, rfl, rfl⟩

/-- C11, the code at the failing inputs.  `SetBindInstance` with the key
`bind1` that already exists returns `AlreadyExists` and the stored binding
keeps its old content; `SetSpec` with the key `b1` that already exists returns
`AlreadyExists` and the stored bundle keeps its old content; `SetSpec` with the
absent key `b9` and a spec whose plan has a parameter with the maximum 10
panics and creates nothing.  For comparison, `SetServiceInstance` with the key
`i1` that already exists returns nil and replaces the spec of the stored
record. -/
theorem Set_existing_key_not_replaced :
    (∃ c1 c2,
      exampleDao.SetBindInstance exampleJSON exampleUUIDString (Cluster.empty []) "bind1"
        (exampleBindInstance "job-old") = (c1, none) ∧
      exampleDao.SetBindInstance exampleJSON exampleUUIDString c1 "bind1"
        (exampleBindInstance "job-new") = (c2, some .AlreadyExists) ∧
      c2.actions = [.Create .ServiceBindings "bind1", .Create .ServiceBindings "bind1"] ∧
      (storeGet c2.serviceBindings "bind1").map (fun b => b.Spec.JobToken) = some "job-old") ∧
    (∃ c3,
      (storeGet exampleBundleCluster.bundles "b1").map (fun b => b.Spec.Description) = some "" ∧
      exampleDao.SetSpec exampleJSON exampleBundleCluster "b1"
        { exampleSpec "b1" [] with Description := "second version" } =
        some (c3, some .AlreadyExists) ∧
      c3.actions = [.Create .Bundles "b1"] ∧
      c3.bundles = exampleBundleCluster.bundles ∧
      (storeGet c3.bundles "b1").map (fun b => b.Spec.Description) = some "") ∧
    (storeGet exampleBundleCluster.bundles "b9" = none ∧
      exampleDao.SetSpec exampleJSON exampleBundleCluster "b9"
        (exampleSpec "b9" [examplePlan [exampleParameter .null
          (some { bits := 4621819117588971520 })]]) = none) ∧
    (∃ c4,
      (storeGet exampleCluster.serviceInstances "i1").map (fun o => o.Spec.BindingIDs) =
        some [] ∧
      exampleDao.SetServiceInstance exampleJSON exampleCluster "i1"
        (exampleServiceInstance [("bind1", true)]) = some (c4, none) ∧
      c4.actions = [.Get .ServiceInstances "i1", .Update .ServiceInstances "i1"] ∧
      (storeGet c4.serviceInstances "i1").map (fun o => o.Spec.BindingIDs) =
        some ["bind1"]) :=
  ⟨⟨_, _, rfl, rfl, rfl, rfl⟩, ⟨_, rfl, rfl, rfl, rfl, rfl⟩, ⟨rfl, rfl⟩,
    ⟨_, rfl, rfl, rfl, rfl⟩⟩
